import Mathlib

/-!
Verification of the mypass secrets store against its specification.

This file contains a shallow embedding of the relational store (`sql.py`),
the database layer (`db.py`), the command processor (`command.py`) and the
session-level fragment of the parser (`parser.py`), together with theorems
settling the specification claims.

Conventions of the embedding:
* each sqlite table is a list of rows plus the table's AUTOINCREMENT
  sequence value;
* Python functions that can raise return `Option`/`Except`, with `none` /
  `.error` modelling the raised exception;
* Python dictionaries built by comprehension (where a later duplicate key
  overwrites an earlier one) are modelled by `List.reverse.find?`;
* the Fernet key object is modelled by an abstract `CryptScheme`
  (encrypt/decrypt functions); theorems that depend on the cryptographic
  contract (decryption inverts encryption, ciphertext differs from
  plaintext, since Fernet ciphertext is strictly longer than its input)
  take that contract as an explicit hypothesis.
-/

set_option autoImplicit false

namespace MyPass

/-! ### Row types: the five tables created by `Sql._create_tables` -/

/-- A row of `tag_table`: id (primary key), name, usage count. -/
structure TagRow where
  id : Nat
  name : String
  count : Nat
deriving DecidableEq, Repr

/-- A row of `field_table`: id, name, sensitive flag, usage count. -/
structure FieldDefRow where
  id : Nat
  name : String
  sensitive : Bool
  count : Nat
deriving DecidableEq, Repr

/-- A row of `items`: id, name, last-modified date, note. -/
structure ItemRow where
  id : Nat
  name : String
  date : Nat
  note : String
deriving DecidableEq, Repr

/-- A row of `tags` (item-tag links): id, tag-table id, item id. -/
structure TagsRow where
  id : Nat
  tag_id : Nat
  item_id : Nat
deriving DecidableEq, Repr

/-- A row of `fields` (item-field values): id, field-table id, item id,
value (plaintext or ciphertext), encrypted flag. -/
structure FieldsRow where
  id : Nat
  field_id : Nat
  item_id : Nat
  value : String
  encrypted : Bool
deriving DecidableEq, Repr

/-- The in-memory sqlite database of `Sql`: the five tables plus the
AUTOINCREMENT sequence value of each table. -/
structure Sql where
  tag_table : List TagRow
  field_table : List FieldDefRow
  items : List ItemRow
  tags : List TagsRow
  fields : List FieldsRow
  tagTableSeq : Nat
  fieldTableSeq : Nat
  itemsSeq : Nat
  tagsSeq : Nat
  fieldsSeq : Nat
deriving DecidableEq, Repr

/-- The freshly created database (`Sql.__init__` + `_create_tables`). -/
def Sql.empty : Sql := ⟨[], [], [], [], [], 0, 0, 0, 0, 0⟩

/-- sqlite AUTOINCREMENT row-id assignment: an explicit id is used as given,
`none` takes the next sequence value; the sequence never falls below the
largest id handed out. Returns (row id, new sequence value). -/
def autoId (given : Option Nat) (seq : Nat) : Nat × Nat :=
  match given with
  | none => (seq + 1, seq + 1)
  | some i => (i, max seq i)

/-! ### Tag table operations (`sql.py`) -/

/-- `Sql.insert_into_tag_table(tag_id, tag_name, tag_count=0)`. -/
def Sql.insert_into_tag_table (s : Sql) (tag_id : Option Nat) (tag_name : String)
    (tag_count : Nat) : Sql × Nat :=
  let (rid, seq) := autoId tag_id s.tagTableSeq
  ({ s with tag_table := s.tag_table ++ [⟨rid, tag_name, tag_count⟩], tagTableSeq := seq }, rid)

/-- `Sql.delete_from_tag_table(tag_name)`: deletes by name, returns rowcount. -/
def Sql.delete_from_tag_table (s : Sql) (tag_name : String) : Sql × Nat :=
  ({ s with tag_table := s.tag_table.filter (fun t => !(t.name == tag_name)) },
   (s.tag_table.filter (fun t => t.name == tag_name)).length)

/-- `Sql.rename_tag_table_entry(old_name, new_name)`: renames every row whose
name is `old_name`, returns rowcount. -/
def Sql.rename_tag_table_entry (s : Sql) (old_name new_name : String) : Sql × Nat :=
  ({ s with tag_table :=
      s.tag_table.map (fun t => if t.name == old_name then { t with name := new_name } else t) },
   (s.tag_table.filter (fun t => t.name == old_name)).length)

/-- `Sql.get_tag_table_name_mapping()[name]`: python dict comprehension keyed
by name (a later duplicate key overwrites an earlier one), yielding (id, count);
`none` models a `KeyError` / failed `in` test. -/
def Sql.get_tag_table_name_mapping (s : Sql) (tag_name : String) : Option (Nat × Nat) :=
  (s.tag_table.reverse.find? (fun t => t.name == tag_name)).map (fun t => (t.id, t.count))

/-- `Sql.get_tag_table_id_mapping()[tag_id]`: dict keyed by id, yielding
(name, count); `none` models a `KeyError`. -/
def Sql.get_tag_table_id_mapping (s : Sql) (tag_id : Nat) : Option (String × Nat) :=
  (s.tag_table.reverse.find? (fun t => t.id == tag_id)).map (fun t => (t.name, t.count))

/-! ### Field table operations (`sql.py`) -/

/-- `Sql.insert_into_field_table(field_id, field_name, field_sensitive, field_count=0)`. -/
def Sql.insert_into_field_table (s : Sql) (field_id : Option Nat) (field_name : String)
    (field_sensitive : Bool) (field_count : Nat) : Sql × Nat :=
  let (rid, seq) := autoId field_id s.fieldTableSeq
  ({ s with
      field_table := s.field_table ++ [⟨rid, field_name, field_sensitive, field_count⟩],
      fieldTableSeq := seq }, rid)

/-- `Sql.delete_from_field_table(field_name)`. -/
def Sql.delete_from_field_table (s : Sql) (field_name : String) : Sql × Nat :=
  ({ s with field_table := s.field_table.filter (fun f => !(f.name == field_name)) },
   (s.field_table.filter (fun f => f.name == field_name)).length)

/-- `Sql.rename_field_table_entry(old_name, new_name)`. -/
def Sql.rename_field_table_entry (s : Sql) (old_name new_name : String) : Sql × Nat :=
  ({ s with field_table :=
      s.field_table.map (fun f => if f.name == old_name then { f with name := new_name } else f) },
   (s.field_table.filter (fun f => f.name == old_name)).length)

/-- `Sql.get_field_table_name_mapping()[name]`: (id, sensitive, count). -/
def Sql.get_field_table_name_mapping (s : Sql) (field_name : String) :
    Option (Nat × Bool × Nat) :=
  (s.field_table.reverse.find? (fun f => f.name == field_name)).map
    (fun f => (f.id, f.sensitive, f.count))

/-- `Sql.get_field_table_id_mapping()[field_id]`: (name, sensitive, count). -/
def Sql.get_field_table_id_mapping (s : Sql) (field_id : Nat) :
    Option (String × Bool × Nat) :=
  (s.field_table.reverse.find? (fun f => f.id == field_id)).map
    (fun f => (f.name, f.sensitive, f.count))

/-! ### Tags (item-tag links) operations (`sql.py`) -/

/-- `Sql.get_tag_list(item_id=None)`: all link rows, or the rows whose
`item_id` column equals the given item id. -/
def Sql.get_tag_list (s : Sql) (item_id : Option Nat) : List TagsRow :=
  match item_id with
  | none => s.tags
  | some i => s.tags.filter (fun r => r.item_id == i)

/-- `Sql.tag_exists(tag_id, item_id)`: declared parameter order is
(tag id from tag table, item id). -/
def Sql.tag_exists (s : Sql) (tag_id item_id : Nat) : Bool :=
  s.tags.any (fun r => r.item_id == item_id && r.tag_id == tag_id)

/-- `Sql.insert_into_tags(tag_id, tag_table_id, item_id)`: declared parameter
order is (row id or None, tag id from the tag table, item id). -/
def Sql.insert_into_tags (s : Sql) (tag_id : Option Nat) (tag_table_id item_id : Nat) :
    Sql × Nat :=
  let (rid, seq) := autoId tag_id s.tagsSeq
  ({ s with tags := s.tags ++ [⟨rid, tag_table_id, item_id⟩], tagsSeq := seq }, rid)

/-- `Sql.delete_from_tags(tag_table_id, item_id)`: two required positional
parameters; with `tag_table_id = None` it deletes every link row of the item,
otherwise the link rows matching both ids. Returns the rowcount. -/
def Sql.delete_from_tags (s : Sql) (tag_table_id : Option Nat) (item_id : Nat) : Sql × Nat :=
  match tag_table_id with
  | none =>
    ({ s with tags := s.tags.filter (fun r => !(r.item_id == item_id)) },
     (s.tags.filter (fun r => r.item_id == item_id)).length)
  | some t =>
    ({ s with tags := s.tags.filter (fun r => !(r.tag_id == t && r.item_id == item_id)) },
     (s.tags.filter (fun r => r.tag_id == t && r.item_id == item_id)).length)

/-! ### Fields (item-field values) operations (`sql.py`) -/

/-- `Sql.get_field_list(item_id=None)`. -/
def Sql.get_field_list (s : Sql) (item_id : Option Nat) : List FieldsRow :=
  match item_id with
  | none => s.fields
  | some i => s.fields.filter (fun r => r.item_id == i)

/-- `Sql.field_exists(field_id, item_id)`: declared parameter order is
(field id from field table, item id). -/
def Sql.field_exists (s : Sql) (field_id item_id : Nat) : Bool :=
  s.fields.any (fun r => r.item_id == item_id && r.field_id == field_id)

/-- `Sql.insert_into_fields(field_id, field_table_id, item_id, field_value,
encrypted_value)`: declared parameter order is (row id or None, field id from
the field table, item id, value, encrypted flag). This models the effect of a
successful INSERT on the stored rows; the validation that
`pragma foreign_keys = on` (enabled in `Sql.__init__`) performs on the
submitted column values is modelled by `Sql.insert_into_fields_checked`,
which is used at the call site whose (transposed) arguments make a violation
reachable (`field_add`). -/
def Sql.insert_into_fields (s : Sql) (field_id : Option Nat) (field_table_id item_id : Nat)
    (field_value : String) (encrypted_value : Bool) : Sql × Nat :=
  let (rid, seq) := autoId field_id s.fieldsSeq
  ({ s with
      fields := s.fields ++ [⟨rid, field_table_id, item_id, field_value, encrypted_value⟩],
      fieldsSeq := seq }, rid)

/-- The foreign-key validation sqlite applies to an INSERT into `fields`
under `pragma foreign_keys = on`: the value bound to the `field_id` column
must be an existing `field_table` id and the value bound to the `item_id`
column an existing `items` id (the schema declares both constraints, and
the repo's own tests assert `IntegrityError` on a dangling reference). -/
def Sql.fields_insert_fk_ok (s : Sql) (field_table_id item_id : Nat) : Bool :=
  s.field_table.any (fun f => f.id == field_table_id) &&
  s.items.any (fun r => r.id == item_id)

/-- `Sql.insert_into_fields` as executed under foreign-key enforcement: the
validation first, then the row append; `Except.error` models the
`IntegrityError` the INSERT raises on a dangling reference. -/
def Sql.insert_into_fields_checked (s : Sql) (field_id : Option Nat)
    (field_table_id item_id : Nat) (field_value : String) (encrypted_value : Bool) :
    Except String (Sql × Nat) :=
  if s.fields_insert_fk_ok field_table_id item_id then
    Except.ok (s.insert_into_fields field_id field_table_id item_id field_value encrypted_value)
  else Except.error "IntegrityError: FOREIGN KEY constraint failed"

/-- `Sql.delete_from_fields(field_table_id, item_id)`: two required positional
parameters, mirroring `delete_from_tags`. -/
def Sql.delete_from_fields (s : Sql) (field_table_id : Option Nat) (item_id : Nat) :
    Sql × Nat :=
  match field_table_id with
  | none =>
    ({ s with fields := s.fields.filter (fun r => !(r.item_id == item_id)) },
     (s.fields.filter (fun r => r.item_id == item_id)).length)
  | some t =>
    ({ s with fields := s.fields.filter (fun r => !(r.field_id == t && r.item_id == item_id)) },
     (s.fields.filter (fun r => r.field_id == t && r.item_id == item_id)).length)

/-- `Sql.update_field(field_id, item_id, field_table_id=None, field_value=None,
encrypted_value=None)`: updates only the supplied columns of the rows whose
`id` equals `field_id` and whose `item_id` column equals `item_id`; with all
three optional arguments absent it is a no-op returning 0. -/
def Sql.update_field (s : Sql) (field_id item_id : Nat) (field_table_id : Option Nat)
    (field_value : Option String) (encrypted_value : Option Bool) : Sql × Nat :=
  if field_table_id = none ∧ field_value = none ∧ encrypted_value = none then (s, 0)
  else
    ({ s with fields := s.fields.map (fun r =>
        if r.id == field_id && r.item_id == item_id then
          { r with field_id := field_table_id.getD r.field_id,
                   value := field_value.getD r.value,
                   encrypted := encrypted_value.getD r.encrypted }
        else r) },
     (s.fields.filter (fun r => r.id == field_id && r.item_id == item_id)).length)

/-! ### Items operations (`sql.py`) -/

/-- `Sql.get_item_list(item_id=None)`. -/
def Sql.get_item_list (s : Sql) (item_id : Option Nat) : List ItemRow :=
  match item_id with
  | none => s.items
  | some i => s.items.filter (fun r => r.id == i)

/-- `Sql.insert_into_items(item_id, item_name, item_timestamp, item_note)`. -/
def Sql.insert_into_items (s : Sql) (item_id : Option Nat) (item_name : String)
    (item_timestamp : Nat) (item_note : String) : Sql × Nat :=
  let (rid, seq) := autoId item_id s.itemsSeq
  ({ s with
      items := s.items ++ [⟨rid, item_name, item_timestamp, item_note⟩],
      itemsSeq := seq }, rid)

/-- `Sql.delete_from_items(item_id)`. -/
def Sql.delete_from_items (s : Sql) (item_id : Nat) : Sql × Nat :=
  ({ s with items := s.items.filter (fun r => !(r.id == item_id)) },
   (s.items.filter (fun r => r.id == item_id)).length)

/-! ### Usage counter recomputation (`sql.py`) -/

/-- One step of `tag_counters[key] += 1` on a python dict modelled as an
association list; `none` models the `KeyError` raised when the key is absent. -/
def bumpCounter : List (Nat × Nat) → Nat → Option (List (Nat × Nat))
  | [], _ => none
  | (k, v) :: rest, key =>
    if k = key then some ((k, v + 1) :: rest)
    else (bumpCounter rest key).map (fun l => (k, v) :: l)

/-- `Sql.update_tag_table_counters()`: initialise a counter per tag-table id
to zero, scan every item's link rows incrementing the counter of each link's
tag id (a link whose tag id is not in the tag table raises `KeyError`,
modelled by `none`), then write the counters back into the `count` column. -/
def Sql.update_tag_table_counters (s : Sql) : Option Sql := do
  let init := s.tag_table.map (fun t => (t.id, 0))
  let counters ← (s.items.flatMap (fun it =>
      (s.get_tag_list (some it.id)).map (fun r => r.tag_id))).foldlM bumpCounter init
  some { s with tag_table := s.tag_table.map (fun t =>
    { t with count := ((counters.find? (fun p => p.1 == t.id)).map Prod.snd).getD t.count }) }

/-- `Sql.update_field_table_counters()`: same recomputation for field usage. -/
def Sql.update_field_table_counters (s : Sql) : Option Sql := do
  let init := s.field_table.map (fun f => (f.id, 0))
  let counters ← (s.items.flatMap (fun it =>
      (s.get_field_list (some it.id)).map (fun r => r.field_id))).foldlM bumpCounter init
  some { s with field_table := s.field_table.map (fun f =>
    { f with count := ((counters.find? (fun p => p.1 == f.id)).map Prod.snd).getD f.count }) }

/-- `Sql.update_counters()`: recompute both vocabularies' counters. -/
def Sql.update_counters (s : Sql) : Option Sql := do
  let s1 ← s.update_tag_table_counters
  s1.update_field_table_counters

/-! ### Exchange document (the json produced by `db.py`) -/

/-- One field entry of an item in the exchange document:
`{name, value, encrypted}`. -/
structure FieldEntry where
  name : String
  value : String
  encrypted : Bool
deriving DecidableEq, Repr

/-- One item of the exchange document: fixed attributes, the list of tag
names, and the field entries keyed by field-row id. -/
structure ItemEntry where
  name : String
  timestamp : Nat
  note : String
  tags : List String
  fields : List (Nat × FieldEntry)
deriving DecidableEq, Repr

/-- The exchange document produced by `Database.sql_to_json` and consumed by
`Database.json_to_sql`: the tag vocabulary (id, name, count), the field
vocabulary (id, name, sensitive, count) and the items keyed by item id.
The json string serialisation/parsing pair of the source is modelled by this
structure directly (a parse failure of foreign bytes is modelled at the
`Db.read` level). -/
structure JsonDoc where
  tags : List (Nat × String × Nat)
  fields : List (Nat × String × Bool × Nat)
  items : List (Nat × ItemEntry)
deriving DecidableEq, Repr

/-! ### Crypto (`crypt.py`), modelled abstractly

`Crypt` derives a Fernet key from the passphrase and exposes string and byte
encryption/decryption. The embedding keeps the key abstract: `encStr`/`decStr`
model `encrypt_str2str`/`decrypt_str2str` (with `none` for the exception a
failed decryption raises), and `encDoc`/`decDoc` model whole-document
encryption (`encrypt_str2byte`/`decrypt_byte2str` composed with json
serialisation). -/
structure CryptScheme where
  encStr : String → String
  decStr : String → Option String
  encDoc : JsonDoc → String
  decDoc : String → Option JsonDoc

/-- The contract the Fernet implementation provides for string values:
decryption inverts encryption, and a ciphertext is never equal to its
plaintext (Fernet ciphertext is strictly longer than the input). -/
def CryptScheme.LawfulStr (c : CryptScheme) : Prop :=
  (∀ s, c.decStr (c.encStr s) = some s) ∧ (∀ s, c.encStr s ≠ s)

/-- The analogous contract for whole-document encryption. -/
def CryptScheme.LawfulDoc (c : CryptScheme) : Prop :=
  ∀ d, c.decDoc (c.encDoc d) = some d

/-! ### Database layer (`db.py`) -/

/-- The `Database` object: file name, optional key, and the sqlite store.
(The advisory checksum attribute is not modelled; no claim mentions it.) -/
structure Db where
  file_name : String
  crypt_key : Option CryptScheme
  sql : Sql

/-- `CommandProcessor.encrypt_value`: encrypt when a key is configured,
otherwise return the value unchanged. -/
def Db.encrypt_value (db : Db) (value : String) : String :=
  match db.crypt_key with
  | some c => c.encStr value
  | none => value

/-- `CommandProcessor.decrypt_value`: decrypt when a key is configured
(`none` models the exception a failed decryption raises), otherwise return
the value unchanged. -/
def Db.decrypt_value (db : Db) (value : String) : Option String :=
  match db.crypt_key with
  | some c => c.decStr value
  | none => some value

/-- `Database._items_to_dict(decrypt_flag)`: convert the items into the item
section of the exchange document; `none` models a `KeyError` on a dangling
tag/field reference or a decryption failure. -/
def Sql.items_to_dict (s : Sql) (key : Option CryptScheme) (decrypt_flag : Bool) :
    Option (List (Nat × ItemEntry)) :=
  s.items.mapM (fun it => do
    let tagNames ← (s.get_tag_list (some it.id)).mapM (fun r =>
      (s.get_tag_table_id_mapping r.tag_id).map Prod.fst)
    let fieldEntries ← (s.get_field_list (some it.id)).mapM (fun r => do
      let ve : String × Bool ←
        if decrypt_flag ∧ r.encrypted ∧ key.isSome then
          match key with
          | some c => (c.decStr r.value).map (fun v => (v, false))
          | none => none
        else some (r.value, r.encrypted)
      let fe ← (s.get_field_table_id_mapping r.field_id).map (fun x => x.1)
      some (r.id, (⟨fe, ve.1, ve.2⟩ : FieldEntry)))
    some (it.id, (⟨it.name, it.date, it.note, tagNames, fieldEntries⟩ : ItemEntry)))

/-- `Database.sql_to_json(decrypt_flag)`: build the exchange document. -/
def Sql.sql_to_json (s : Sql) (key : Option CryptScheme) (decrypt_flag : Bool) :
    Option JsonDoc := do
  let itemSection ← s.items_to_dict key decrypt_flag
  some ⟨s.tag_table.map (fun t => (t.id, t.name, t.count)),
        s.field_table.map (fun f => (f.id, f.name, f.sensitive, f.count)),
        itemSection⟩

/-- `Database.json_to_sql(data, encrypt_flag)`: populate the store from the
exchange document. Tag and field vocabularies are inserted with their
original ids; items are inserted with `None` (AUTOINCREMENT assigns the id);
each item's tag links are inserted through
`insert_into_tags(None, int(item_id), tag_mapping[tag][MAP_TAG_ID])`, whose
second and third positional arguments land in the declared parameters
`tag_table_id` and `item_id` respectively; each field value goes through
`insert_into_fields(None, int(item_id), field_mapping[...][MAP_FIELD_ID],
f_value, f_encrypted)` with the same positional layout. A missing tag or
field name raises `KeyError`, wrapped as `failed to read the items`. -/
def json_to_sql (key : Option CryptScheme) (encrypt_flag : Bool) (doc : JsonDoc)
    (s0 : Sql) : Except String Sql := do
  let s1 := doc.tags.foldl (fun acc t => (acc.insert_into_tag_table (some t.1) t.2.1 t.2.2).1) s0
  let s2 := doc.fields.foldl (fun acc f =>
    (acc.insert_into_field_table (some f.1) f.2.1 f.2.2.1 f.2.2.2).1) s1
  doc.items.foldlM (fun acc (p : Nat × ItemEntry) => do
    let (origId, e) := p
    let acc := (acc.insert_into_items none e.name e.timestamp e.note).1
    let acc ← e.tags.foldlM (fun (a : Sql) (tagName : String) => do
      match s2.get_tag_table_name_mapping tagName with
      | some (tid, _) => Except.ok (a.insert_into_tags none origId tid).1
      | none => Except.error "failed to read the items") acc
    e.fields.foldlM (fun (a : Sql) (fp : Nat × FieldEntry) => do
      match s2.get_field_table_name_mapping fp.2.name with
      | some (ftid, fsens, _) =>
        let ve : String × Bool :=
          match key with
          | some c =>
            if encrypt_flag ∧ ¬fp.2.encrypted ∧ fsens then (c.encStr fp.2.value, true)
            else (fp.2.value, fp.2.encrypted)
          | none => (fp.2.value, fp.2.encrypted)
        Except.ok (a.insert_into_fields none origId ftid ve.1 ve.2).1
      | none => Except.error "failed to read the items") acc) s2

/-- The bytes of the database file: either a plain (unencrypted) document or
an encrypted blob. Unparseable plain bytes are represented by `encBlob` read
without a key. -/
inductive FileData where
  | plain (doc : JsonDoc)
  | encBlob (blob : String)

/-- `Database.read()`: open the file (`contents = none` models a failure to
open), decrypt if a key is configured (a wrong key or non-ciphertext raises,
modelled by the error case), decode the document and repopulate the schema
of the current (empty) store. -/
def Db.read (db : Db) (contents : Option FileData) : Except String Db := do
  let fd ← match contents with
    | none => Except.error ("cannot open " ++ db.file_name)
    | some fd => Except.ok fd
  let doc ← match db.crypt_key, fd with
    | some c, FileData.encBlob b =>
      match c.decDoc b with
      | some d => Except.ok d
      | none => Except.error "failed to decrypt data"
    | some _, FileData.plain _ => Except.error "failed to decrypt data"
    | none, FileData.plain d => Except.ok d
    | none, FileData.encBlob _ => Except.error "failed to convert to json"
  let sql ← json_to_sql db.crypt_key false doc db.sql
  Except.ok { db with sql := sql }

/-- `Database.write()`: recompute both usage counters, serialise to the
exchange document, encrypt the whole document when a key is configured, and
produce the file contents. (The temporary-file/backup-rename dance concerns
the file system only and is not part of any claim about the stored data.)
`none` models an exception during counter recomputation or serialisation. -/
def Db.write (db : Db) : Option (Db × FileData) := do
  let s1 ← db.sql.update_counters
  let doc ← s1.sql_to_json db.crypt_key false
  let fd := match db.crypt_key with
    | none => FileData.plain doc
    | some c => FileData.encBlob (c.encDoc doc)
  some ({ db with sql := s1 }, fd)

/-- `Database.search(pattern, flags...)`, restricted to one item: the matcher
`m` models `compiled_pattern.search` of the compiled case-insensitive
pattern. The item's tuple is appended once per matching test, in source
order: item name, note, each matching tag, then each field row, where a
field row is tested against the field name when `field_name_flag` is set and
otherwise, for unencrypted rows only, against the value. `none` models the
`KeyError` raised by a dangling tag/field reference. -/
def Db.searchItem (db : Db) (m : String → Bool) (item_name_flag tag_flag field_name_flag
    field_value_flag note_flag : Bool) (it : ItemRow) : Option (List (Nat × String × Nat)) :=
  let tup := (it.id, it.name, it.date)
  let p1 := if item_name_flag && m it.name then [tup] else []
  let p2 := if note_flag && m it.note then [tup] else []
  (if tag_flag then
      (db.sql.get_tag_list (some it.id)).foldlM (fun acc r =>
        match db.sql.get_tag_table_id_mapping r.tag_id with
        | some (nm, _) => some (if m nm then acc ++ [tup] else acc)
        | none => none) ([] : List (Nat × String × Nat))
    else some []).bind (fun p3 =>
  (if field_name_flag || field_value_flag then
      (db.sql.get_field_list (some it.id)).foldlM (fun acc r =>
        if field_name_flag then
          match db.sql.get_field_table_id_mapping r.field_id with
          | some (nm, _, _) => some (if m nm then acc ++ [tup] else acc)
          | none => none
        else if !r.encrypted then some (if m r.value then acc ++ [tup] else acc)
        else some acc) ([] : List (Nat × String × Nat))
    else some []).bind (fun p4 =>
  some (p1 ++ p2 ++ p3 ++ p4)))

/-- `Database.search`: accumulate the per-item results over all items. -/
def Db.search (db : Db) (m : String → Bool) (item_name_flag tag_flag field_name_flag
    field_value_flag note_flag : Bool) : Option (List (Nat × String × Nat)) :=
  db.sql.items.foldlM (fun acc it =>
    (db.searchItem m item_name_flag tag_flag field_name_flag field_value_flag note_flag it).map
      (fun l => acc ++ l)) []

/-! ### Responses (`response.py`) -/

/-- The four response severities. -/
inductive Severity where
  | OK
  | WARNING
  | ERROR
  | EXCEPTION
deriving DecidableEq, Repr

/-- A response value: a message string, an integer (e.g. a fresh id), or an
item list. -/
inductive RValue where
  | vstr (s : String)
  | vint (n : Nat)
  | vitems (l : List (Nat × String × Nat))
deriving DecidableEq, Repr

/-- A `Response`: severity plus value. -/
structure Response where
  severity : Severity
  value : RValue
deriving DecidableEq, Repr

/-- `Response.is_ok`. -/
def Response.is_ok (r : Response) : Bool := r.severity == Severity.OK

/-- `ResponseGenerator.ok`. -/
def Resp.ok (value : RValue) : Response := ⟨Severity.OK, value⟩

/-- `ResponseGenerator.warning`: prefixes the message. -/
def Resp.warning (message : String) : Response :=
  ⟨Severity.WARNING, RValue.vstr ("Warning: " ++ message)⟩

/-- `ResponseGenerator.error`: prefixes the message. -/
def Resp.error (message : String) : Response :=
  ⟨Severity.ERROR, RValue.vstr ("Error: " ++ message)⟩

/-- `ResponseGenerator.exception`: message plus the wrapped cause. -/
def Resp.exception (message cause : String) : Response :=
  ⟨Severity.EXCEPTION, RValue.vstr ("Exception: " ++ message ++ " - " ++ cause)⟩

/-! ### Command processor (`command.py`) -/

/-- `DEFAULT_DATABASE_NAME` from `db.py`. -/
def DEFAULT_DATABASE_NAME : String := "pw.db"

/-- `NO_DATABASE` from `command.py`. -/
def NO_DATABASE : String := "no database"

/-- The command processor state: database file name and the optional loaded
database. The two injected callbacks (confirmation and key acquisition) are
passed to the operations that consult them, as the answer the host would
give. -/
structure CommandProcessor where
  file_name : String
  db : Option Db

/-- `CommandProcessor.db_loaded()` with the default `overwrite=False`: just
whether a database is in memory. -/
def CommandProcessor.db_loaded (cp : CommandProcessor) : Bool :=
  cp.db.isSome

/-- `CommandProcessor.db_loaded(overwrite=True)`: `False` when no database is
loaded; otherwise the negated confirmation answer (`True` means the database
may not be overwritten). -/
def CommandProcessor.db_loaded_overwrite (cp : CommandProcessor) (confirmAnswer : Bool) :
    Bool :=
  match cp.db with
  | none => false
  | some _ => !confirmAnswer

/-- `CommandProcessor.database_read(file_name)`: refuse (warning) when a
database is loaded and the confirmation callback denies the overwrite;
otherwise construct a fresh `Database(file_name, self.crypt())` and run
`read()` on it. On success the store and file name are installed; on any
exception the database is reset to `None`, the file name to the default, and
an EXCEPTION response wrapping the cause is returned. -/
def CommandProcessor.database_read (cp : CommandProcessor) (confirmAnswer : Bool)
    (key : Option CryptScheme) (file_name : String) (contents : Option FileData) :
    CommandProcessor × Response :=
  if cp.db_loaded_overwrite confirmAnswer then
    (cp, Resp.warning ("database " ++ file_name ++ " not read"))
  else
    match (Db.mk file_name key Sql.empty).read contents with
    | Except.ok db2 =>
      ({ file_name := file_name, db := some db2 },
       Resp.ok (RValue.vstr ("read database " ++ file_name)))
    | Except.error e =>
      ({ file_name := DEFAULT_DATABASE_NAME, db := none },
       Resp.exception ("failed to read database " ++ file_name) e)

/-- `CommandProcessor.tag_table_add(name)`: reject an existing name with an
ERROR, otherwise insert with an AUTOINCREMENT id. -/
def CommandProcessor.tag_table_add (cp : CommandProcessor) (name : String) :
    CommandProcessor × Response :=
  match cp.db with
  | none => (cp, Resp.warning NO_DATABASE)
  | some db =>
    match db.sql.get_tag_table_name_mapping name with
    | some _ => (cp, Resp.error ("tag " ++ name ++ " already exists"))
    | none =>
      let (s1, tid) := db.sql.insert_into_tag_table none name 0
      ({ cp with db := some { db with sql := s1 } },
       Resp.ok (RValue.vstr ("Added tag " ++ name ++ " with id " ++ toString tid)))

/-- `CommandProcessor.tag_table_rename(old_name, new_name)`: runs the rename
unconditionally (no check that the new name is free) and reports an ERROR
only when no row carried the old name. -/
def CommandProcessor.tag_table_rename (cp : CommandProcessor) (old_name new_name : String) :
    CommandProcessor × Response :=
  match cp.db with
  | none => (cp, Resp.warning NO_DATABASE)
  | some db =>
    let (s1, n) := db.sql.rename_tag_table_entry old_name new_name
    let cp1 := { cp with db := some { db with sql := s1 } }
    if n = 0 then (cp1, Resp.error ("cannot rename tag " ++ old_name))
    else (cp1, Resp.ok (RValue.vstr ("tag " ++ old_name ++ " -> " ++ new_name)))

/-- `CommandProcessor.tag_table_delete(name)`: recompute the tag usage
counters, then delete only when the recomputed count is zero; a used tag
yields an ERROR, an unknown tag an ERROR, a `KeyError` during recomputation
an EXCEPTION (leaving the store untouched, since the counters are written
back only after the scan completes). -/
def CommandProcessor.tag_table_delete (cp : CommandProcessor) (name : String) :
    CommandProcessor × Response :=
  match cp.db with
  | none => (cp, Resp.warning NO_DATABASE)
  | some db =>
    match db.sql.update_tag_table_counters with
    | none => (cp, Resp.exception "cannot delete tag from table" "KeyError")
    | some s1 =>
      let cp1 := { cp with db := some { db with sql := s1 } }
      match s1.get_tag_table_name_mapping name with
      | none => (cp1, Resp.error ("tag " ++ name ++ " does not exist"))
      | some (_, cnt) =>
        if cnt = 0 then
          let (s2, n) := s1.delete_from_tag_table name
          ({ cp with db := some { db with sql := s2 } },
           Resp.ok (RValue.vstr ("removed " ++ toString n ++ " tags")))
        else (cp1, Resp.error ("tag " ++ name ++ " is being used"))

/-- `CommandProcessor.field_table_add(name, sensitive_flag)`. -/
def CommandProcessor.field_table_add (cp : CommandProcessor) (name : String)
    (sensitive_flag : Bool) : CommandProcessor × Response :=
  match cp.db with
  | none => (cp, Resp.warning NO_DATABASE)
  | some db =>
    match db.sql.get_field_table_name_mapping name with
    | some _ => (cp, Resp.error ("field " ++ name ++ " already exists"))
    | none =>
      let (s1, fid) := db.sql.insert_into_field_table none name sensitive_flag 0
      ({ cp with db := some { db with sql := s1 } },
       Resp.ok (RValue.vstr ("Added field " ++ name ++ " with id " ++ toString fid)))

/-- `CommandProcessor.field_table_rename(old_name, new_name)`: like the tag
version, without a collision check. -/
def CommandProcessor.field_table_rename (cp : CommandProcessor) (old_name new_name : String) :
    CommandProcessor × Response :=
  match cp.db with
  | none => (cp, Resp.warning NO_DATABASE)
  | some db =>
    let (s1, n) := db.sql.rename_field_table_entry old_name new_name
    let cp1 := { cp with db := some { db with sql := s1 } }
    if n = 0 then (cp1, Resp.error ("cannot rename field " ++ old_name))
    else (cp1, Resp.ok (RValue.vstr ("field " ++ old_name ++ " -> " ++ new_name)))

/-- `CommandProcessor.field_table_delete(name)`: the field-table twin of
`tag_table_delete`. -/
def CommandProcessor.field_table_delete (cp : CommandProcessor) (name : String) :
    CommandProcessor × Response :=
  match cp.db with
  | none => (cp, Resp.warning NO_DATABASE)
  | some db =>
    match db.sql.update_field_table_counters with
    | none => (cp, Resp.exception "cannot delete field from table" "KeyError")
    | some s1 =>
      let cp1 := { cp with db := some { db with sql := s1 } }
      match s1.get_field_table_name_mapping name with
      | none => (cp1, Resp.error ("field " ++ name ++ " does not exist"))
      | some (_, _, cnt) =>
        if cnt = 0 then
          let (s2, n) := s1.delete_from_field_table name
          ({ cp with db := some { db with sql := s2 } },
           Resp.ok (RValue.vstr ("removed " ++ toString n ++ " fields")))
        else (cp1, Resp.error ("field " ++ name ++ " is being used"))

/-- `CommandProcessor.field_add(item_id, field_name, field_value)`: resolve
the field name; if the definition is sensitive the value is passed through
`encrypt_value`, and the stored encrypted flag is computed as
`f_value != field_value`. The source then calls
`insert_into_fields(None, item_id, field_table_id, f_value, ...)`, whose
second and third positional arguments land in the declared parameters
`field_table_id` and `item_id` respectively; under `pragma foreign_keys =
on` the INSERT therefore validates the item id against the field table and
the field-table id against the items table, and the `IntegrityError` of a
failed validation is caught by the surrounding handler as an EXCEPTION
response, with nothing stored. -/
def CommandProcessor.field_add (cp : CommandProcessor) (item_id : Nat) (field_name : String)
    (field_value : String) : CommandProcessor × Response :=
  match cp.db with
  | none => (cp, Resp.warning NO_DATABASE)
  | some db =>
    match db.sql.get_field_table_name_mapping field_name with
    | none => (cp, Resp.error ("field " ++ field_name ++ " does not exist"))
    | some (field_table_id, f_sensitive, _) =>
      let f_value := if f_sensitive then db.encrypt_value field_value else field_value
      match db.sql.insert_into_fields_checked none item_id field_table_id f_value
        (f_value != field_value) with
      | Except.error e => (cp, Resp.exception "cannot add field to item" e)
      | Except.ok (s1, n) =>
        ({ cp with db := some { db with sql := s1 } },
         Resp.ok (RValue.vstr ("added " ++ field_name ++ " to item " ++ toString item_id ++
           " with id=" ++ toString n)))

/-- Modelled from the spec: `Sql.field_get` is called by
`CommandProcessor.field_update` but is not defined in the sources (only its
caller is); per the field-value update path it fetches the field-value rows
with the given row id. -/
def Sql.field_get (s : Sql) (field_id : Nat) : List FieldsRow :=
  s.fields.filter (fun r => r.id == field_id)

/-- `CommandProcessor.field_update(item_id, field_id, new_field_name,
new_field_value)`: the four-way update policy. The existence test calls
`field_exists(item_id, field_id)` and the final write calls
`update_field(item_id, field_id, ...)`, in both cases the first two
positional arguments landing in the declared parameters `field_id` and
`item_id` respectively (i.e. transposed). With a value supplied, it is
encrypted iff the (possibly renamed) definition is sensitive, the stored
flag being `new_value != new_field_value`; with no value supplied the stored
value is decrypted, encrypted, or left as is according to the
encrypted/sensitive combination, an encrypted-and-staying-sensitive value
keeping flag `True` and a decryption computing flag `False`. -/
def CommandProcessor.field_update (cp : CommandProcessor) (item_id field_id : Nat)
    (new_field_name : Option String) (new_field_value : Option String) :
    CommandProcessor × Response :=
  match cp.db with
  | none => (cp, Resp.warning NO_DATABASE)
  | some db =>
    if new_field_name = none ∧ new_field_value = none then
      (cp, Resp.warning "nothing to update")
    else if db.sql.field_exists item_id field_id then
      match db.sql.field_get field_id with
      | [] => (cp, Resp.exception "cannot update item field" "IndexError")
      | field :: _ =>
        match db.sql.get_field_table_id_mapping field.field_id with
        | none => (cp, Resp.exception "cannot update item field" "KeyError")
        | some (_, f_sensitive, _) =>
          let resolved : Except Response (Nat × Bool) :=
            match new_field_name with
            | some nm =>
              match db.sql.get_field_table_name_mapping nm with
              | some (ftid, sens, _) => Except.ok (ftid, sens)
              | none => Except.error (Resp.error ("field name " ++ nm ++ " does not exist"))
            | none => Except.ok (field.field_id, f_sensitive)
          match resolved with
          | Except.error r => (cp, r)
          | Except.ok (field_table_id, new_sensitive) =>
            let step : Except String (String × Bool) :=
              match new_field_value with
              | some nv =>
                let newv := if new_sensitive then db.encrypt_value nv else nv
                Except.ok (newv, newv != nv)
              | none =>
                if field.encrypted ∧ ¬new_sensitive then
                  match db.decrypt_value field.value with
                  | some d => Except.ok (d, false)
                  | none => Except.error "InvalidToken"
                else if ¬field.encrypted ∧ new_sensitive then
                  let newv := db.encrypt_value field.value
                  Except.ok (newv, newv != field.value)
                else if field.encrypted ∧ new_sensitive then Except.ok (field.value, true)
                else Except.ok (field.value, false)
            match step with
            | Except.error e => (cp, Resp.exception "cannot update item field" e)
            | Except.ok (new_value, encrypted_flag) =>
              let (s1, n) := db.sql.update_field item_id field_id (some field_table_id)
                (some new_value) (some encrypted_flag)
              let cp1 := { cp with db := some { db with sql := s1 } }
              if n > 0 then (cp1, Resp.ok (RValue.vstr ("updated " ++ toString n ++ " fields")))
              else (cp1, Resp.warning "no fields updated")
    else (cp, Resp.error ("field " ++ toString field_id ++ " does not exist"))

/-- `CommandProcessor.item_delete(item_id)`: the source invokes
`self.db.sql.delete_from_tags(item_id)` and then
`self.db.sql.delete_from_fields(item_id)` with a single positional argument
each, while `Sql.delete_from_tags` and `Sql.delete_from_fields` declare two
required positional parameters, so the first call raises `TypeError` before
any row is touched; the surrounding handler converts it into an EXCEPTION
response and the store is left unchanged. -/
def CommandProcessor.item_delete (cp : CommandProcessor) (item_id : Nat) :
    CommandProcessor × Response :=
  match cp.db with
  | none => (cp, Resp.warning NO_DATABASE)
  | some _ =>
    (cp, Resp.exception "cannot delete item"
      ("TypeError: delete_from_tags missing 1 required positional argument " ++
       toString item_id))

/-- `CommandProcessor.item_copy(item_id)`: fetch the item row and its link
and field rows, insert a new item named `Copy of` + name with a fresh
timestamp (`now` models `get_timestamp()`) and the same note, then re-insert
every link via `insert_into_tags(None, t_id, new_item_id)` and every field
via `insert_into_fields(None, f_id, new_item_id, f_value, f_encrypted)`
(both matching the declared parameter orders, so tag/field ids and values
are copied verbatim onto the new item id). -/
def CommandProcessor.item_copy (cp : CommandProcessor) (item_id : Nat) (now : Nat) :
    CommandProcessor × Response :=
  match cp.db with
  | none => (cp, Resp.warning NO_DATABASE)
  | some db =>
    let item_list := db.sql.get_item_list (some item_id)
    let tag_list := db.sql.get_tag_list (some item_id)
    let field_list := db.sql.get_field_list (some item_id)
    match item_list with
    | [] => (cp, Resp.error ("item " ++ toString item_id ++ " does not exist"))
    | item :: _ =>
      let (s1, new_item_id) := db.sql.insert_into_items none ("Copy of " ++ item.name) now
        item.note
      let s2 := tag_list.foldl (fun acc r => (acc.insert_into_tags none r.tag_id new_item_id).1) s1
      let s3 := field_list.foldl (fun acc r =>
        (acc.insert_into_fields none r.field_id new_item_id r.value r.encrypted).1) s2
      ({ cp with db := some { db with sql := s3 } },
       Resp.ok (RValue.vstr ("added item " ++ toString new_item_id ++ ", " ++
         toString tag_list.length ++ " tags, " ++ toString field_list.length ++ " fields")))

/-! ### Parser session fragment (`parser.py`) -/

/-- The parser's session state relevant to the claims: the optional default
item id set by `item use`. -/
structure ParserSession where
  default_item_id : Option Nat
deriving DecidableEq, Repr

/-- `Parser.item_delete(token)`: run the command processor's delete; when the
response is OK and the deleted id equals the session's default item id, clear
the default item id; otherwise leave it unchanged. -/
def Parser.item_delete (ps : ParserSession) (cp : CommandProcessor) (tokenValue : Nat) :
    ParserSession × CommandProcessor × Response :=
  let (cp1, r) := cp.item_delete tokenValue
  let ps1 :=
    if r.is_ok ∧ ps.default_item_id = some tokenValue then
      { ps with default_item_id := none }
    else ps
  (ps1, cp1, r)

/-! ## Claim C1: write/read round trip -/

/-- A populated store for C1: two tags, two items, and one link attaching
tag 1 to item 2 (usage counters already accurate). -/
def c1Store : Sql :=
  ⟨[⟨1, "t1", 1⟩, ⟨2, "t2", 0⟩], [], [⟨1, "i1", 10, "n1"⟩, ⟨2, "i2", 20, "n2"⟩],
   [⟨1, 1, 2⟩], [], 2, 0, 2, 1, 0⟩

/-- The C1 database (no key configured — a valid configuration). -/
def c1Db : Db := ⟨"pw.db", none, c1Store⟩

/-- C1: the claim fails on the code. Writing `c1Store` (whose single link
attaches tag 1 to item 2) and reading the file back into a fresh store with
the same (no-key) configuration succeeds, but produces the link row
`⟨1, 2, 1⟩` — tag 2 on item 1 — instead of the original `⟨1, 1, 2⟩`, because
`json_to_sql` passes the item id into the `tag_table_id` parameter of
`insert_into_tags` and the tag id into its `item_id` parameter. The write
itself leaves the in-memory store unchanged, so the mismatch is strictly
between the store that was written and the store that was read back. -/
theorem c1_write_read_failing_input :
    c1Db.write.map (fun p => p.1.sql) = some c1Store ∧
    c1Db.write.map (fun p =>
        ((Db.mk "pw.db" none Sql.empty).read (some p.2)).toOption.map (fun d => d.sql.tags)) =
      some (some [⟨1, 2, 1⟩]) ∧
    ([⟨1, 2, 1⟩] : List TagsRow) ≠ c1Store.tags := by
  exact ⟨rfl, rfl, by decide⟩

/-! ## Claim C2: failed database_read rolls back to the unloaded state -/

/-- The read attempted by `database_read`: a fresh
`Database(file_name, key)` whose `read()` is run on the file contents. -/
def databaseReadAttempt (key : Option CryptScheme) (file_name : String)
    (contents : Option FileData) : Except String Db :=
  (Db.mk file_name key Sql.empty).read contents

/-- C2: for every command-processor state, file name and key configuration,
whenever the read is attempted (no overwrite refusal) and the underlying
load fails — unreadable file, decryption failure or decode failure — the
call ends with no store loaded (`db = none`, file name reset to the
default) and returns exactly the EXCEPTION response wrapping the failure. -/
theorem c2_read_failure_rolls_back (cp : CommandProcessor) (confirmAnswer : Bool)
    (key : Option CryptScheme) (file_name : String) (contents : Option FileData) (e : String)
    (hconfirm : cp.db_loaded_overwrite confirmAnswer = false)
    (hfail : databaseReadAttempt key file_name contents = Except.error e) :
    cp.database_read confirmAnswer key file_name contents =
      (⟨DEFAULT_DATABASE_NAME, none⟩,
       Resp.exception ("failed to read database " ++ file_name) e) ∧
    (cp.database_read confirmAnswer key file_name contents).2.severity =
      Severity.EXCEPTION := by
  have h1 : (Db.mk file_name key Sql.empty).read contents = Except.error e := hfail
  constructor
  · simp [CommandProcessor.database_read, hconfirm, h1]
  · simp [CommandProcessor.database_read, hconfirm, h1, Resp.exception]

/-- Witness for C2: an unloaded processor reading a file that cannot be
opened ends unloaded with an EXCEPTION response. -/
theorem c2_read_failure_rolls_back_witness :
    (⟨"pw.db", none⟩ : CommandProcessor).database_read true none "x.db" none =
      (⟨DEFAULT_DATABASE_NAME, none⟩,
       Resp.exception ("failed to read database " ++ "x.db") "cannot open x.db") ∧
    ((⟨"pw.db", none⟩ : CommandProcessor).database_read true none "x.db" none).2.severity =
      Severity.EXCEPTION :=
  c2_read_failure_rolls_back ⟨"pw.db", none⟩ true none "x.db" none "cannot open x.db" rfl rfl

/-! ## Claim C3: item_delete cascade -/

/-- A loaded store for C3: one item carrying one tag link and one field
value. -/
def c3Store : Sql :=
  ⟨[⟨1, "t", 0⟩], [⟨1, "f", false, 0⟩], [⟨1, "i1", 10, "n"⟩], [⟨1, 1, 1⟩],
   [⟨1, 1, 1, "v", false⟩], 1, 1, 1, 1, 1⟩

/-- The C3 command processor with `c3Store` loaded. -/
def c3Cp : CommandProcessor := ⟨"pw.db", some ⟨"pw.db", none, c3Store⟩⟩

/-- C3: the claim fails on the code. `item_delete(1)` on a store containing
item 1 with a tag link and a field value returns an EXCEPTION response (the
`TypeError` raised by calling the two-parameter `delete_from_tags` with a
single argument) and deletes nothing: the item, its link and its field value
are all still present afterwards. -/
theorem c3_item_delete_failing_input :
    (c3Cp.item_delete 1).2.severity = Severity.EXCEPTION ∧
    (c3Cp.item_delete 1).1 = c3Cp ∧
    ∃ db1, (c3Cp.item_delete 1).1.db = some db1 ∧
      db1.sql.items = [⟨1, "i1", 10, "n"⟩] ∧
      db1.sql.tags = [⟨1, 1, 1⟩] ∧
      db1.sql.fields = [⟨1, 1, 1, "v", false⟩] := by
  exact ⟨rfl, rfl, _, rfl, rfl, rfl, rfl⟩

/-! ## Claim C4: selective encryption on field_add -/

/-- A loaded store for C4: one sensitive field definition, one item, no key
configured. -/
def c4Store : Sql := ⟨[], [⟨1, "pw", true, 0⟩], [⟨1, "i", 5, "n"⟩], [], [], 0, 1, 1, 0, 0⟩

/-- The C4 command processor in the no-key configuration. -/
def c4Cp : CommandProcessor := ⟨"pw.db", some ⟨"pw.db", none, c4Store⟩⟩

/-- C4 counterexample: in the no-passphrase configuration — which the claim
explicitly includes — adding a value for the sensitive field `pw` stores the
value unchanged with encrypted flag `false`, refuting the claim that a
sensitive field always yields encrypted = true and a stored value different
from the input; and for a target item id that is not also a field-definition
id (here 3), the transposed INSERT violates foreign-key enforcement, so
`field_add` returns an EXCEPTION and stores nothing at all. -/
theorem c4_counterexample_no_key :
    ((c4Cp.field_add 1 "pw" "secret").1.db.map (fun d => d.sql.fields)) =
      some [⟨1, 1, 1, "secret", false⟩] ∧
    (c4Cp.field_add 1 "pw" "secret").2.severity = Severity.OK ∧
    ¬ (∀ fr ∈ [(⟨1, 1, 1, "secret", false⟩ : FieldsRow)],
        fr.encrypted = true ∧ fr.value ≠ "secret") ∧
    (c4Cp.field_add 3 "pw" "secret").2.severity = Severity.EXCEPTION ∧
    (c4Cp.field_add 3 "pw" "secret").1 = c4Cp := by
  exact ⟨rfl, rfl, by decide, rfl, rfl⟩

/-- C4 (amended): `field_add` on a resolvable field definition first runs
the transposed INSERT under foreign-key enforcement. When that validation
fails — the target item id is not an existing field-definition id, or the
definition id not an existing item id — `field_add` returns an EXCEPTION
wrapping the `IntegrityError` and stores nothing. When it passes, exactly
one row is appended whose encrypted flag records whether the stored value
differs from the input: a non-sensitive definition stores the input
unchanged with encrypted = false; in the no-key configuration every value —
sensitive or not — is stored unchanged with encrypted = false; and when a
key is configured, a sensitive definition stores the ciphertext, which
differs from the input, with encrypted = true. -/
theorem c4_amended_selective_encryption (cp : CommandProcessor) (db : Db) (item_id : Nat)
    (field_name field_value : String) (ftid : Nat) (sens : Bool) (cnt : Nat)
    (hdb : cp.db = some db)
    (hf : db.sql.get_field_table_name_mapping field_name = some (ftid, sens, cnt)) :
    (db.sql.fields_insert_fk_ok item_id ftid = false →
      cp.field_add item_id field_name field_value =
        (cp, Resp.exception "cannot add field to item"
          "IntegrityError: FOREIGN KEY constraint failed")) ∧
    (db.sql.fields_insert_fk_ok item_id ftid = true →
      ∃ db1 r row, cp.field_add item_id field_name field_value =
          ({ cp with db := some db1 }, r) ∧
        db1.sql.fields = db.sql.fields ++ [row] ∧
        row.encrypted = (row.value != field_value) ∧
        (sens = false → row.value = field_value ∧ row.encrypted = false) ∧
        (db.crypt_key = none → row.value = field_value ∧ row.encrypted = false) ∧
        (∀ c, db.crypt_key = some c → c.LawfulStr → sens = true →
          row.value = c.encStr field_value ∧ row.value ≠ field_value ∧
          row.encrypted = true)) := by
  constructor
  · intro hfk
    simp [CommandProcessor.field_add, hdb, hf, Sql.insert_into_fields_checked, hfk]
  · intro hfk
    refine ⟨{ db with sql := (db.sql.insert_into_fields none item_id ftid
        (if sens then db.encrypt_value field_value else field_value)
        ((if sens then db.encrypt_value field_value else field_value) != field_value)).1 },
      Resp.ok (RValue.vstr ("added " ++ field_name ++ " to item " ++ toString item_id ++
        " with id=" ++ toString (db.sql.fieldsSeq + 1))),
      ⟨db.sql.fieldsSeq + 1, item_id, ftid,
        (if sens then db.encrypt_value field_value else field_value),
        ((if sens then db.encrypt_value field_value else field_value) != field_value)⟩,
      ?_, ?_, rfl, ?_, ?_, ?_⟩
    · simp [CommandProcessor.field_add, hdb, hf, Sql.insert_into_fields_checked, hfk,
        Sql.insert_into_fields, autoId]
    · simp [Sql.insert_into_fields, autoId]
    · intro hsens
      subst hsens
      simp
    · intro hkey
      have henc : db.encrypt_value field_value = field_value := by
        simp [Db.encrypt_value, hkey]
      cases sens <;> simp [henc]
    · intro c hkey hlaw hsens
      subst hsens
      have henc : db.encrypt_value field_value = c.encStr field_value := by
        simp [Db.encrypt_value, hkey]
      have hne : c.encStr field_value ≠ field_value := hlaw.2 field_value
      simp [henc, hne, bne_iff_ne]

/-- A concrete encryption scheme for witnesses: string encryption prepends
one character (so ciphertext always differs from plaintext and decryption
strips it back off); document encryption is unused by the witnesses. -/
def witScheme : CryptScheme :=
  ⟨fun s => ⟨'c' :: s.data⟩,
   fun s =>
     match s.data with
     | 'c' :: rest => some ⟨rest⟩
     | _ => none,
   fun _ => "", fun _ => none⟩

/-- The witness scheme satisfies the string-encryption contract. -/
theorem witScheme_lawfulStr : witScheme.LawfulStr := by
  constructor
  · intro s
    cases s
    rfl
  · intro s h
    have h2 : 'c' :: s.data = s.data := congrArg String.data h
    exact List.cons_ne_self _ _ h2

/-- A keyed store for the C4 witness: the sensitive definition `pw`. -/
def c4wStore : Sql := ⟨[], [⟨1, "pw", true, 0⟩], [⟨1, "i", 5, "n"⟩], [], [], 0, 1, 1, 0, 0⟩

/-- The C4 witness database, with `witScheme` as the configured key. -/
def c4wDb : Db := ⟨"pw.db", some witScheme, c4wStore⟩

/-- The C4 witness command processor. -/
def c4wCp : CommandProcessor := ⟨"pw.db", some c4wDb⟩

/-- Witness for the amended C4 at a keyed store and sensitive field, on
which the foreign-key validation passes. -/
theorem c4_amended_selective_encryption_witness :
    ∃ db1 r row, c4wCp.field_add 1 "pw" "secret" = ({ c4wCp with db := some db1 }, r) ∧
      db1.sql.fields = c4wDb.sql.fields ++ [row] ∧
      row.encrypted = (row.value != "secret") ∧
      (true = false → row.value = "secret" ∧ row.encrypted = false) ∧
      (c4wDb.crypt_key = none → row.value = "secret" ∧ row.encrypted = false) ∧
      (∀ c, c4wDb.crypt_key = some c → c.LawfulStr → true = true →
        row.value = c.encStr "secret" ∧ row.value ≠ "secret" ∧ row.encrypted = true) :=
  (c4_amended_selective_encryption c4wCp c4wDb 1 "pw" "secret" 1 true 0 rfl rfl).2 rfl

/-! ## Claim C5: field_update sensitive-to-plaintext with no key -/

/-- A loaded store for C5 (no key configured): the non-sensitive definition
`url` (id 2), a field-value row id 2 holding ciphertext with encrypted =
true, and a row id 1 placed so that the (transposed) existence check and
update of `field_update` both match. -/
def c5Store : Sql :=
  ⟨[], [⟨2, "url", false, 0⟩], [⟨1, "i", 5, "n"⟩],
   [], [⟨1, 1, 2, "x", false⟩, ⟨2, 2, 9, "CT", true⟩], 0, 2, 1, 0, 2⟩

/-- The C5 command processor in the no-key configuration. -/
def c5Cp : CommandProcessor := ⟨"pw.db", some ⟨"pw.db", none, c5Store⟩⟩

/-- C5: the claim fails on the code. Updating the encrypted field-value row
id 2 to the non-sensitive definition `url` with no new value and no key
configured leaves the ciphertext in place but records encrypted = false — it
marks the still-encrypted stored ciphertext as unencrypted plaintext (and,
because `update_field` receives item id and field id transposed, the write
lands on row id 1 rather than the row that was read). The response is OK. -/
theorem c5_field_update_failing_input :
    ∃ db1, (c5Cp.field_update 1 2 (some "url") none).1.db = some db1 ∧
      db1.sql.fields = [⟨1, 2, 2, "CT", false⟩, ⟨2, 2, 9, "CT", true⟩] ∧
      (c5Cp.field_update 1 2 (some "url") none).2 =
        Resp.ok (RValue.vstr "updated 1 fields") := by
  exact ⟨_, rfl, rfl, rfl⟩

/-! ## Claim C7: vocabulary name uniqueness -/

/-- A loaded store for C7: two tags with distinct names `a` and `b`. -/
def c7Store : Sql := ⟨[⟨1, "a", 0⟩, ⟨2, "b", 0⟩], [], [], [], [], 2, 0, 0, 0, 0⟩

/-- The C7 command processor with `c7Store` loaded. -/
def c7Cp : CommandProcessor := ⟨"pw.db", some ⟨"pw.db", none, c7Store⟩⟩

/-- C7: the claim fails on the code. Starting from pairwise-distinct tag
names `a`, `b`, renaming `a` to `b` succeeds with an OK response and leaves
the tag table with two entries both named `b`: `tag_table_rename` performs
no duplicate-name check, so the uniqueness invariant is not preserved by
every operation. -/
theorem c7_rename_breaks_uniqueness :
    (c7Store.tag_table.map (fun t => t.name)).Nodup ∧
    (c7Cp.tag_table_rename "a" "b").2 = Resp.ok (RValue.vstr "tag a -> b") ∧
    ∃ db1, (c7Cp.tag_table_rename "a" "b").1.db = some db1 ∧
      db1.sql.tag_table.map (fun t => t.name) = ["b", "b"] ∧
      ¬ (db1.sql.tag_table.map (fun t => t.name)).Nodup := by
  exact ⟨by decide, rfl, _, rfl, rfl, by decide⟩

/-! ## Claim C6: vocabulary deletion guard -/

/-- `update_tag_table_counters` only rewrites the `count` column of the tag
table: every other table, and the id and name of every tag-table row, are
unchanged. -/
theorem update_tag_table_counters_shape (s s' : Sql)
    (h : s.update_tag_table_counters = some s') :
    s'.tags = s.tags ∧ s'.fields = s.fields ∧ s'.items = s.items ∧
    s'.field_table = s.field_table ∧
    s'.tag_table.map (fun t => (t.id, t.name)) =
      s.tag_table.map (fun t => (t.id, t.name)) := by
  unfold Sql.update_tag_table_counters at h
  obtain ⟨counters, _, hY⟩ := Option.bind_eq_some.mp h
  injection hY with hY
  subst hY
  refine ⟨rfl, rfl, rfl, rfl, ?_⟩
  simp [List.map_map]

/-- `update_field_table_counters` only rewrites the `count` column of the
field table. -/
theorem update_field_table_counters_shape (s s' : Sql)
    (h : s.update_field_table_counters = some s') :
    s'.tags = s.tags ∧ s'.fields = s.fields ∧ s'.items = s.items ∧
    s'.tag_table = s.tag_table ∧
    s'.field_table.map (fun f => (f.id, f.name, f.sensitive)) =
      s.field_table.map (fun f => (f.id, f.name, f.sensitive)) := by
  unfold Sql.update_field_table_counters at h
  obtain ⟨counters, _, hY⟩ := Option.bind_eq_some.mp h
  injection hY with hY
  subst hY
  refine ⟨rfl, rfl, rfl, rfl, ?_⟩
  simp [List.map_map]

/-- C6: for any loaded store, when the recomputation of the usage counters
succeeds and yields a nonzero recomputed count for a tag and for a field
definition, `tag_table_delete` and `field_table_delete` each first install
the recomputed counters and then return the "is being used" ERROR response;
every link row is unchanged, the vocabulary entries keep their ids and names
(only counters are rewritten), and the guarded entries are still present. -/
theorem c6_vocab_delete_guard (cp : CommandProcessor) (db : Db) (tname fname : String)
    (sqlT sqlF : Sql) (tid fid tcnt fcnt : Nat) (fsens : Bool)
    (hdb : cp.db = some db)
    (htC : db.sql.update_tag_table_counters = some sqlT)
    (htN : sqlT.get_tag_table_name_mapping tname = some (tid, tcnt))
    (htPos : tcnt ≠ 0)
    (hfC : db.sql.update_field_table_counters = some sqlF)
    (hfN : sqlF.get_field_table_name_mapping fname = some (fid, fsens, fcnt))
    (hfPos : fcnt ≠ 0) :
    cp.tag_table_delete tname =
      ({ cp with db := some { db with sql := sqlT } },
       Resp.error ("tag " ++ tname ++ " is being used")) ∧
    sqlT.tags = db.sql.tags ∧
    sqlT.tag_table.map (fun t => (t.id, t.name)) =
      db.sql.tag_table.map (fun t => (t.id, t.name)) ∧
    (∃ t ∈ sqlT.tag_table, t.id = tid ∧ t.name = tname) ∧
    cp.field_table_delete fname =
      ({ cp with db := some { db with sql := sqlF } },
       Resp.error ("field " ++ fname ++ " is being used")) ∧
    sqlF.fields = db.sql.fields ∧
    sqlF.field_table.map (fun f => (f.id, f.name, f.sensitive)) =
      db.sql.field_table.map (fun f => (f.id, f.name, f.sensitive)) ∧
    (∃ f ∈ sqlF.field_table, f.id = fid ∧ f.name = fname) := by
  have hTshape := update_tag_table_counters_shape db.sql sqlT htC
  have hFshape := update_field_table_counters_shape db.sql sqlF hfC
  refine ⟨?_, hTshape.1, hTshape.2.2.2.2, ?_, ?_, hFshape.2.1, hFshape.2.2.2.2, ?_⟩
  · simp [CommandProcessor.tag_table_delete, hdb, htC, htN, htPos]
  · obtain ⟨t, hfind, hval⟩ := Option.map_eq_some'.mp htN
    refine ⟨t, ?_, ?_, ?_⟩
    · exact List.mem_reverse.mp (List.mem_of_find?_eq_some hfind)
    · exact (Prod.mk.injEq _ _ _ _).mp hval |>.1
    · have hp := List.find?_some hfind
      exact eq_of_beq hp
  · simp [CommandProcessor.field_table_delete, hdb, hfC, hfN, hfPos]
  · obtain ⟨f, hfind, hval⟩ := Option.map_eq_some'.mp hfN
    refine ⟨f, ?_, ?_, ?_⟩
    · exact List.mem_reverse.mp (List.mem_of_find?_eq_some hfind)
    · exact congrArg Prod.fst hval
    · have hp := List.find?_some hfind
      exact eq_of_beq hp

/-- The C6 witness store: the tag `t` and the field `f` are each used once
(their stored counters are stale on purpose; the recomputation fixes them
to 1). -/
def c6wStore : Sql :=
  ⟨[⟨1, "t", 5⟩], [⟨1, "f", false, 9⟩], [⟨1, "i", 5, "n"⟩], [⟨1, 1, 1⟩],
   [⟨1, 1, 1, "v", false⟩], 1, 1, 1, 1, 1⟩

/-- The C6 witness store after tag-counter recomputation. -/
def c6wSqlT : Sql :=
  ⟨[⟨1, "t", 1⟩], [⟨1, "f", false, 9⟩], [⟨1, "i", 5, "n"⟩], [⟨1, 1, 1⟩],
   [⟨1, 1, 1, "v", false⟩], 1, 1, 1, 1, 1⟩

/-- The C6 witness store after field-counter recomputation. -/
def c6wSqlF : Sql :=
  ⟨[⟨1, "t", 5⟩], [⟨1, "f", false, 1⟩], [⟨1, "i", 5, "n"⟩], [⟨1, 1, 1⟩],
   [⟨1, 1, 1, "v", false⟩], 1, 1, 1, 1, 1⟩

/-- The C6 witness database. -/
def c6wDb : Db := ⟨"pw.db", none, c6wStore⟩

/-- The C6 witness command processor. -/
def c6wCp : CommandProcessor := ⟨"pw.db", some c6wDb⟩

/-- Witness for C6 at a concrete store with a used tag and a used field. -/
theorem c6_vocab_delete_guard_witness :
    c6wCp.tag_table_delete "t" =
      ({ c6wCp with db := some { c6wDb with sql := c6wSqlT } },
       Resp.error ("tag " ++ "t" ++ " is being used")) ∧
    c6wSqlT.tags = c6wDb.sql.tags ∧
    c6wSqlT.tag_table.map (fun t => (t.id, t.name)) =
      c6wDb.sql.tag_table.map (fun t => (t.id, t.name)) ∧
    (∃ t ∈ c6wSqlT.tag_table, t.id = 1 ∧ t.name = "t") ∧
    c6wCp.field_table_delete "f" =
      ({ c6wCp with db := some { c6wDb with sql := c6wSqlF } },
       Resp.error ("field " ++ "f" ++ " is being used")) ∧
    c6wSqlF.fields = c6wDb.sql.fields ∧
    c6wSqlF.field_table.map (fun f => (f.id, f.name, f.sensitive)) =
      c6wDb.sql.field_table.map (fun f => (f.id, f.name, f.sensitive)) ∧
    (∃ f ∈ c6wSqlF.field_table, f.id = 1 ∧ f.name = "f") :=
  c6_vocab_delete_guard c6wCp c6wDb "t" "f" c6wSqlT c6wSqlF 1 1 1 1 false rfl rfl rfl
    (by decide) rfl rfl (by decide)

/-! ## Claim C8: item copy -/

/-- The tag ids linked to item `i` (the item's tag set, with multiplicity,
in row order). -/
def Sql.tagIdsOf (s : Sql) (i : Nat) : List Nat :=
  (s.tags.filter (fun r => r.item_id == i)).map (fun r => r.tag_id)

/-- The (field-definition id, stored value, encrypted flag) triples of item
`i`'s field values, in row order. -/
def Sql.fieldDataOf (s : Sql) (i : Nat) : List (Nat × String × Bool) :=
  (s.fields.filter (fun r => r.item_id == i)).map (fun r => (r.field_id, r.value, r.encrypted))

/-- The tag-duplication loop of `item_copy` leaves the items, fields and
vocabulary tables untouched. -/
theorem copyTagsFold_others (l : List TagsRow) (s : Sql) (y : Nat) :
    (l.foldl (fun acc r => (acc.insert_into_tags none r.tag_id y).1) s).items = s.items ∧
    (l.foldl (fun acc r => (acc.insert_into_tags none r.tag_id y).1) s).fields = s.fields ∧
    (l.foldl (fun acc r => (acc.insert_into_tags none r.tag_id y).1) s).tag_table =
      s.tag_table := by
  induction l generalizing s with
  | nil => exact ⟨rfl, rfl, rfl⟩
  | cons hd tl ih =>
    simpa [Sql.insert_into_tags, autoId] using ih ((s.insert_into_tags none hd.tag_id y).1)

/-- Effect of the tag-duplication loop on the tag ids of an item: item `y`
gains the tag ids of the copied rows in order; any other item's tag ids are
unchanged. -/
theorem copyTagsFold_tagIds (l : List TagsRow) (s : Sql) (y j : Nat) :
    (l.foldl (fun acc r => (acc.insert_into_tags none r.tag_id y).1) s).tagIdsOf j =
      s.tagIdsOf j ++ (if j = y then l.map (fun r => r.tag_id) else []) := by
  induction l generalizing s with
  | nil => simp
  | cons hd tl ih =>
    simp only [List.foldl_cons]
    rw [ih]
    by_cases hj : j = y
    · subst hj
      simp [Sql.tagIdsOf, Sql.insert_into_tags, autoId, List.filter_append]
    · have hne : (y == j) = false := by
        simp only [beq_eq_false_iff_ne]
        exact fun h => hj h.symm
      simp [Sql.tagIdsOf, Sql.insert_into_tags, autoId, List.filter_append, hne, hj]

/-- The field-duplication loop of `item_copy` leaves the items, tags and
vocabulary tables untouched. -/
theorem copyFieldsFold_others (l : List FieldsRow) (s : Sql) (y : Nat) :
    (l.foldl (fun acc r =>
      (acc.insert_into_fields none r.field_id y r.value r.encrypted).1) s).items = s.items ∧
    (l.foldl (fun acc r =>
      (acc.insert_into_fields none r.field_id y r.value r.encrypted).1) s).tags = s.tags := by
  induction l generalizing s with
  | nil => exact ⟨rfl, rfl⟩
  | cons hd tl ih =>
    simpa [Sql.insert_into_fields, autoId] using
      ih ((s.insert_into_fields none hd.field_id y hd.value hd.encrypted).1)

/-- Effect of the field-duplication loop on the field data of an item: item
`y` gains the copied (field id, value, encrypted) triples verbatim and in
order; any other item's field data is unchanged. -/
theorem copyFieldsFold_fieldData (l : List FieldsRow) (s : Sql) (y j : Nat) :
    (l.foldl (fun acc r =>
        (acc.insert_into_fields none r.field_id y r.value r.encrypted).1) s).fieldDataOf j =
      s.fieldDataOf j ++
        (if j = y then l.map (fun r => (r.field_id, r.value, r.encrypted)) else []) := by
  induction l generalizing s with
  | nil => simp
  | cons hd tl ih =>
    simp only [List.foldl_cons]
    rw [ih]
    by_cases hj : j = y
    · subst hj
      simp [Sql.fieldDataOf, Sql.insert_into_fields, autoId, List.filter_append]
    · have hne : (y == j) = false := by
        simp only [beq_eq_false_iff_ne]
        exact fun h => hj h.symm
      simp [Sql.fieldDataOf, Sql.insert_into_fields, autoId, List.filter_append, hne, hj]

/-- C8: for any loaded store whose row ids respect the AUTOINCREMENT
sequences (every item id, and every link/field row's item reference, is at
most `itemsSeq`) and any existing item `X` (first matching row `xi`),
`item_copy(X)` at clock value `now ≥ xi.date` returns OK and creates the new
item with the fresh id `itemsSeq + 1`, distinct from `X`, named
`Copy of` + the original name, with timestamp `now ≥ xi.date`, the same
note, an identical tag-id set and identical (field id, value, encrypted)
triples copied byte-for-byte (never re-encrypted); `X`'s own rows are left
unchanged. -/
theorem c8_item_copy (cp : CommandProcessor) (db : Db) (X now : Nat) (xi : ItemRow)
    (l : List ItemRow)
    (hdb : cp.db = some db)
    (hitem : db.sql.get_item_list (some X) = xi :: l)
    (hseq : ∀ r ∈ db.sql.items, r.id ≤ db.sql.itemsSeq)
    (htag : ∀ r ∈ db.sql.tags, r.item_id ≤ db.sql.itemsSeq)
    (hfield : ∀ r ∈ db.sql.fields, r.item_id ≤ db.sql.itemsSeq)
    (hnow : xi.date ≤ now) :
    ∃ db1 r, cp.item_copy X now = ({ cp with db := some db1 }, r) ∧
      r.severity = Severity.OK ∧
      db.sql.itemsSeq + 1 ≠ X ∧
      db1.sql.items = db.sql.items ++
        [⟨db.sql.itemsSeq + 1, "Copy of " ++ xi.name, now, xi.note⟩] ∧
      db1.sql.tagIdsOf (db.sql.itemsSeq + 1) = db.sql.tagIdsOf X ∧
      db1.sql.fieldDataOf (db.sql.itemsSeq + 1) = db.sql.fieldDataOf X ∧
      db1.sql.tagIdsOf X = db.sql.tagIdsOf X ∧
      db1.sql.fieldDataOf X = db.sql.fieldDataOf X ∧
      xi.date ≤ now := by
  -- facts about X and the fresh id
  have hximem : xi ∈ db.sql.items.filter (fun r => r.id == X) := by
    have : xi ∈ xi :: l := List.mem_cons_self xi l
    rw [← hitem] at this
    exact this
  have hxi := List.mem_filter.mp hximem
  have hxid : xi.id = X := eq_of_beq hxi.2
  have hXle : X ≤ db.sql.itemsSeq := hxid ▸ hseq xi hxi.1
  have hfresh : db.sql.itemsSeq + 1 ≠ X := by omega
  -- names for the intermediate stores
  set y := db.sql.itemsSeq + 1 with hy
  set s1 := (db.sql.insert_into_items none ("Copy of " ++ xi.name) now xi.note).1 with hs1
  set tl := db.sql.get_tag_list (some X) with htl
  set fl := db.sql.get_field_list (some X) with hfl
  set s2 := tl.foldl (fun acc r => (acc.insert_into_tags none r.tag_id y).1) s1 with hs2
  set s3 := fl.foldl (fun acc r =>
    (acc.insert_into_fields none r.field_id y r.value r.encrypted).1) s2 with hs3
  -- basic projections of s1
  have hs1tags : s1.tags = db.sql.tags := rfl
  have hs1fields : s1.fields = db.sql.fields := rfl
  have hs1items : s1.items = db.sql.items ++ [⟨y, "Copy of " ++ xi.name, now, xi.note⟩] := rfl
  -- the loops
  have hT := copyTagsFold_others tl s1 y
  have hF := copyFieldsFold_others fl s2 y
  -- filters on the fresh id are empty before the loops
  have hTagNilFilter : db.sql.tagIdsOf y = [] := by
    unfold Sql.tagIdsOf
    have : db.sql.tags.filter (fun r => r.item_id == y) = [] := by
      apply List.filter_eq_nil_iff.mpr
      intro r hr
      have h1 : r.item_id ≤ db.sql.itemsSeq := htag r hr
      simp only [beq_iff_eq]
      omega
    rw [this]
    rfl
  have hFieldNilFilter : db.sql.fieldDataOf y = [] := by
    unfold Sql.fieldDataOf
    have : db.sql.fields.filter (fun r => r.item_id == y) = [] := by
      apply List.filter_eq_nil_iff.mpr
      intro r hr
      have h1 : r.item_id ≤ db.sql.itemsSeq := hfield r hr
      simp only [beq_iff_eq]
      omega
    rw [this]
    rfl
  -- s1 has the same tag and field projections as the original store
  have hs1tagIds : ∀ j, s1.tagIdsOf j = db.sql.tagIdsOf j := by
    intro j
    unfold Sql.tagIdsOf
    rw [hs1tags]
  have hs1fieldData : ∀ j, s1.fieldDataOf j = db.sql.fieldDataOf j := by
    intro j
    unfold Sql.fieldDataOf
    rw [hs1fields]
  -- field fold does not change the tag projection
  have hs3tagIds : ∀ j, s3.tagIdsOf j = s2.tagIdsOf j := by
    intro j
    unfold Sql.tagIdsOf
    rw [hs3, hF.2]
  refine ⟨{ db with sql := s3 },
    Resp.ok (RValue.vstr ("added item " ++ toString y ++ ", " ++ toString tl.length ++
      " tags, " ++ toString fl.length ++ " fields")),
    ?_, rfl, hfresh, ?_, ?_, ?_, ?_, ?_, hnow⟩
  · -- the run itself
    show cp.item_copy X now = _
    rw [CommandProcessor.item_copy, hdb]
    simp only [hitem]
    rfl
  · -- items of the final store
    rw [hs3]
    rw [(copyFieldsFold_others fl s2 y).1, hs2, (copyTagsFold_others tl s1 y).1, hs1items]
  · -- the new item's tag ids
    rw [hs3tagIds y, hs2, copyTagsFold_tagIds tl s1 y y, hs1tagIds y, hTagNilFilter, if_pos rfl]
    simp [Sql.tagIdsOf, htl, Sql.get_tag_list]
  · -- the new item's field data
    rw [hs3, copyFieldsFold_fieldData fl s2 y y, if_pos rfl]
    have hs2fieldData : s2.fieldDataOf y = db.sql.fieldDataOf y := by
      unfold Sql.fieldDataOf
      rw [hs2, (copyTagsFold_others tl s1 y).2.1, hs1fields]
    rw [hs2fieldData, hFieldNilFilter]
    simp [Sql.fieldDataOf, hfl, Sql.get_field_list]
  · -- X's tag ids unchanged
    rw [hs3tagIds X, hs2, copyTagsFold_tagIds tl s1 y X, hs1tagIds X,
      if_neg (hy ▸ hfresh ∘ Eq.symm ∘ id), List.append_nil]
  · -- X's field data unchanged
    rw [hs3, copyFieldsFold_fieldData fl s2 y X, if_neg (hy ▸ hfresh ∘ Eq.symm ∘ id),
      List.append_nil]
    unfold Sql.fieldDataOf
    rw [hs2, (copyTagsFold_others tl s1 y).2.1, hs1fields]

/-- The C8 witness store: item 1 with tag 3 and an encrypted field value. -/
def c8wStore : Sql :=
  ⟨[⟨3, "t", 1⟩], [⟨2, "f", true, 1⟩], [⟨1, "acct", 5, "note"⟩], [⟨1, 3, 1⟩],
   [⟨1, 2, 1, "CIPHER", true⟩], 3, 2, 1, 1, 1⟩

/-- The C8 witness database. -/
def c8wDb : Db := ⟨"pw.db", none, c8wStore⟩

/-- The C8 witness command processor. -/
def c8wCp : CommandProcessor := ⟨"pw.db", some c8wDb⟩

/-- Witness for C8: copying item 1 at clock value 9. -/
theorem c8_item_copy_witness :
    ∃ db1 r, c8wCp.item_copy 1 9 = ({ c8wCp with db := some db1 }, r) ∧
      r.severity = Severity.OK ∧
      c8wDb.sql.itemsSeq + 1 ≠ 1 ∧
      db1.sql.items = c8wDb.sql.items ++
        [⟨c8wDb.sql.itemsSeq + 1, "Copy of " ++ (⟨1, "acct", 5, "note"⟩ : ItemRow).name, 9,
          (⟨1, "acct", 5, "note"⟩ : ItemRow).note⟩] ∧
      db1.sql.tagIdsOf (c8wDb.sql.itemsSeq + 1) = c8wDb.sql.tagIdsOf 1 ∧
      db1.sql.fieldDataOf (c8wDb.sql.itemsSeq + 1) = c8wDb.sql.fieldDataOf 1 ∧
      db1.sql.tagIdsOf 1 = c8wDb.sql.tagIdsOf 1 ∧
      db1.sql.fieldDataOf 1 = c8wDb.sql.fieldDataOf 1 ∧
      (⟨1, "acct", 5, "note"⟩ : ItemRow).date ≤ 9 :=
  c8_item_copy c8wCp c8wDb 1 9 ⟨1, "acct", 5, "note"⟩ [] rfl rfl (by decide) (by decide)
    (by decide) (by decide)

/-! ## Claim C9: cross-field search -/

/-- A store for C9: one item whose field `user` (not matching the pattern)
holds the unencrypted value `joe` (matching the pattern). -/
def c9Store : Sql :=
  ⟨[], [⟨1, "user", false, 0⟩], [⟨1, "item", 5, "note"⟩], [], [⟨1, 1, 1, "joe", false⟩],
   0, 1, 1, 0, 1⟩

/-- The C9 database. -/
def c9Db : Db := ⟨"pw.db", none, c9Store⟩

/-- The C9 matcher: the compiled pattern matches exactly the string `joe`. -/
def c9Match : String → Bool := fun s => s == "joe"

/-- A scan step that appends `tup` once per row satisfying `p` always
succeeds, keeps everything already accumulated, and yields `tup` whenever
some scanned row satisfies `p`. -/
theorem scanFold_mem {α : Type} (tup : Nat × String × Nat) (p : α → Bool)
    (step : List (Nat × String × Nat) → α → Option (List (Nat × String × Nat)))
    (l : List α)
    (hstep : ∀ acc, ∀ r ∈ l, step acc r = some (if p r then acc ++ [tup] else acc)) :
    ∀ acc, ∃ res, l.foldlM step acc = some res ∧ (∀ x ∈ acc, x ∈ res) ∧
      ((∃ r ∈ l, p r = true) → tup ∈ res) := by
  induction l with
  | nil =>
    intro acc
    refine ⟨acc, rfl, fun x hx => hx, ?_⟩
    rintro ⟨r, hr, -⟩
    exact absurd hr (List.not_mem_nil r)
  | cons hd tl ih =>
    intro acc
    obtain ⟨res, hfold, hmono, hmem⟩ :=
      ih (fun acc r hr => hstep acc r (List.mem_cons_of_mem hd hr))
        (if p hd then acc ++ [tup] else acc)
    refine ⟨res, ?_, ?_, ?_⟩
    · rw [List.foldlM_cons, hstep acc hd (List.mem_cons_self hd tl)]
      simpa using hfold
    · intro x hx
      apply hmono
      by_cases hp : p hd = true
      · simp only [hp, if_true]
        exact List.mem_append_left _ hx
      · simpa [hp] using hx
    · rintro ⟨r, hr, hpr⟩
      rcases List.mem_cons.mp hr with h | h
      · subst h
        apply hmono
        simp [hpr]
      · exact hmem ⟨r, h, hpr⟩

/-- `searchItem` on a store whose tag and field references all resolve
returns a result list that contains the item's tuple whenever one of the
enabled scopes matches — with field values participating only when the
field-name scope is disabled (the `elif` in the source). -/
theorem searchItem_spec (db : Db) (m : String → Bool)
    (inf tf fnf fvf nf : Bool) (it : ItemRow)
    (hres_t : ∀ r ∈ db.sql.tags, (db.sql.get_tag_table_id_mapping r.tag_id).isSome)
    (hres_f : ∀ r ∈ db.sql.fields, (db.sql.get_field_table_id_mapping r.field_id).isSome) :
    ∃ res, db.searchItem m inf tf fnf fvf nf it = some res ∧
      ((inf = true ∧ m it.name = true) → (it.id, it.name, it.date) ∈ res) ∧
      ((nf = true ∧ m it.note = true) → (it.id, it.name, it.date) ∈ res) ∧
      ((tf = true ∧ ∃ r ∈ db.sql.tags, r.item_id = it.id ∧
          ∃ nm c, db.sql.get_tag_table_id_mapping r.tag_id = some (nm, c) ∧ m nm = true) →
        (it.id, it.name, it.date) ∈ res) ∧
      ((fnf = true ∧ ∃ r ∈ db.sql.fields, r.item_id = it.id ∧
          ∃ nm sb c, db.sql.get_field_table_id_mapping r.field_id = some (nm, sb, c) ∧
            m nm = true) →
        (it.id, it.name, it.date) ∈ res) ∧
      ((fnf = false ∧ fvf = true ∧ ∃ r ∈ db.sql.fields, r.item_id = it.id ∧
          r.encrypted = false ∧ m r.value = true) →
        (it.id, it.name, it.date) ∈ res) := by
  have hmemfilter_t : ∀ {r : TagsRow}, r ∈ db.sql.tags → r.item_id = it.id →
      r ∈ db.sql.get_tag_list (some it.id) := by
    intro r hr hid
    exact List.mem_filter.mpr ⟨hr, beq_iff_eq.mpr hid⟩
  have hmemfilter_f : ∀ {r : FieldsRow}, r ∈ db.sql.fields → r.item_id = it.id →
      r ∈ db.sql.get_field_list (some it.id) := by
    intro r hr hid
    exact List.mem_filter.mpr ⟨hr, beq_iff_eq.mpr hid⟩
  -- the tag scan
  have hp3 : ∃ res3,
      (if tf then
        (db.sql.get_tag_list (some it.id)).foldlM (fun acc r =>
          match db.sql.get_tag_table_id_mapping r.tag_id with
          | some (nm, _) => some (if m nm then acc ++ [(it.id, it.name, it.date)] else acc)
          | none => none) ([] : List (Nat × String × Nat))
       else some []) = some res3 ∧
      ((tf = true ∧ ∃ r ∈ db.sql.tags, r.item_id = it.id ∧
          ∃ nm c, db.sql.get_tag_table_id_mapping r.tag_id = some (nm, c) ∧ m nm = true) →
        (it.id, it.name, it.date) ∈ res3) := by
    cases htf : tf with
    | false =>
      refine ⟨[], by simp, ?_⟩
      rintro ⟨h, -⟩
      cases h
    | true =>
      obtain ⟨res3, h1, -, h3⟩ := scanFold_mem (it.id, it.name, it.date)
        (fun r =>
          match db.sql.get_tag_table_id_mapping r.tag_id with
          | some (nm, _) => m nm
          | none => false)
        (fun acc r =>
          match db.sql.get_tag_table_id_mapping r.tag_id with
          | some (nm, _) => some (if m nm then acc ++ [(it.id, it.name, it.date)] else acc)
          | none => none)
        (db.sql.get_tag_list (some it.id))
        (by
          intro acc r hr
          have hrtags : r ∈ db.sql.tags := (List.mem_filter.mp hr).1
          have := hres_t r hrtags
          rcases hl : db.sql.get_tag_table_id_mapping r.tag_id with - | ⟨nm, c⟩
          · rw [hl] at this
            cases this
          · simp [hl]) []
      refine ⟨res3, ?_, ?_⟩
      · simpa using h1
      · rintro ⟨-, r, hr, hid, nm, c, hl, hm⟩
        apply h3
        exact ⟨r, hmemfilter_t hr hid, by simp [hl, hm]⟩
  -- the field scan
  have hp4 : ∃ res4,
      (if fnf || fvf then
        (db.sql.get_field_list (some it.id)).foldlM (fun acc r =>
          if fnf then
            match db.sql.get_field_table_id_mapping r.field_id with
            | some (nm, _, _) => some (if m nm then acc ++ [(it.id, it.name, it.date)] else acc)
            | none => none
          else if !r.encrypted then
            some (if m r.value then acc ++ [(it.id, it.name, it.date)] else acc)
          else some acc) ([] : List (Nat × String × Nat))
       else some []) = some res4 ∧
      ((fnf = true ∧ ∃ r ∈ db.sql.fields, r.item_id = it.id ∧
          ∃ nm sb c, db.sql.get_field_table_id_mapping r.field_id = some (nm, sb, c) ∧
            m nm = true) →
        (it.id, it.name, it.date) ∈ res4) ∧
      ((fnf = false ∧ fvf = true ∧ ∃ r ∈ db.sql.fields, r.item_id = it.id ∧
          r.encrypted = false ∧ m r.value = true) →
        (it.id, it.name, it.date) ∈ res4) := by
    cases hfnf : fnf with
    | true =>
      obtain ⟨res4, h1, -, h3⟩ := scanFold_mem (it.id, it.name, it.date)
        (fun r =>
          match db.sql.get_field_table_id_mapping r.field_id with
          | some (nm, _, _) => m nm
          | none => false)
        (fun acc r =>
          match db.sql.get_field_table_id_mapping r.field_id with
          | some (nm, _, _) => some (if m nm then acc ++ [(it.id, it.name, it.date)] else acc)
          | none => none)
        (db.sql.get_field_list (some it.id))
        (by
          intro acc r hr
          have hrfields : r ∈ db.sql.fields := (List.mem_filter.mp hr).1
          have := hres_f r hrfields
          rcases hl : db.sql.get_field_table_id_mapping r.field_id with - | ⟨nm, sb, c⟩
          · rw [hl] at this
            cases this
          · simp [hl]) []
      refine ⟨res4, ?_, ?_, ?_⟩
      · simpa using h1
      · rintro ⟨-, r, hr, hid, nm, sb, c, hl, hm⟩
        apply h3
        exact ⟨r, hmemfilter_f hr hid, by simp [hl, hm]⟩
      · rintro ⟨h, -⟩
        cases h
    | false =>
      cases hfvf : fvf with
      | false =>
        refine ⟨[], by simp, ?_, ?_⟩
        · rintro ⟨h, -⟩
          cases h
        · rintro ⟨-, h, -⟩
          cases h
      | true =>
        obtain ⟨res4, h1, -, h3⟩ := scanFold_mem (it.id, it.name, it.date)
          (fun r => !r.encrypted && m r.value)
          (fun acc r =>
            if !r.encrypted then
              some (if m r.value then acc ++ [(it.id, it.name, it.date)] else acc)
            else some acc)
          (db.sql.get_field_list (some it.id))
          (by
            intro acc r hr
            by_cases he : r.encrypted = true
            · simp [he]
            · simp only [Bool.not_eq_true] at he
              simp [he]) []
        refine ⟨res4, ?_, ?_, ?_⟩
        · simpa using h1
        · rintro ⟨h, -⟩
          cases h
        · rintro ⟨-, -, r, hr, hid, he, hm⟩
          apply h3
          exact ⟨r, hmemfilter_f hr hid, by simp [he, hm]⟩
  obtain ⟨res3, hres3, hmem3⟩ := hp3
  obtain ⟨res4, hres4, hmem4n, hmem4v⟩ := hp4
  refine ⟨(if inf && m it.name then [(it.id, it.name, it.date)] else []) ++
      (if nf && m it.note then [(it.id, it.name, it.date)] else []) ++ res3 ++ res4,
    ?_, ?_, ?_, ?_, ?_, ?_⟩
  · simp only [Db.searchItem, hres3, hres4]
    rfl
  · rintro ⟨hi, hm⟩
    apply List.mem_append_left
    apply List.mem_append_left
    apply List.mem_append_left
    simp [hi, hm]
  · rintro ⟨hi, hm⟩
    apply List.mem_append_left
    apply List.mem_append_left
    apply List.mem_append_right
    simp [hi, hm]
  · intro h
    apply List.mem_append_left
    apply List.mem_append_right
    exact hmem3 h
  · intro h
    apply List.mem_append_right
    exact hmem4n h
  · intro h
    apply List.mem_append_right
    exact hmem4v h

/-- The item loop of `search` succeeds when every per-item scan succeeds,
keeps the accumulator, and keeps every per-item result. -/
theorem searchFold_spec (db : Db) (m : String → Bool) (inf tf fnf fvf nf : Bool)
    (l : List ItemRow)
    (hall : ∀ it ∈ l, ∃ res, db.searchItem m inf tf fnf fvf nf it = some res) :
    ∀ acc, ∃ out,
      l.foldlM (fun acc it =>
        (db.searchItem m inf tf fnf fvf nf it).map (fun x => acc ++ x)) acc = some out ∧
      (∀ x ∈ acc, x ∈ out) ∧
      (∀ it ∈ l, ∀ res, db.searchItem m inf tf fnf fvf nf it = some res →
        ∀ x ∈ res, x ∈ out) := by
  induction l with
  | nil =>
    intro acc
    refine ⟨acc, rfl, fun x hx => hx, ?_⟩
    intro it hit
    exact absurd hit (List.not_mem_nil it)
  | cons hd tl ih =>
    intro acc
    obtain ⟨reshd, hreshd⟩ := hall hd (List.mem_cons_self hd tl)
    obtain ⟨out, hout, hmono, hkeep⟩ :=
      ih (fun it hit => hall it (List.mem_cons_of_mem hd hit)) (acc ++ reshd)
    refine ⟨out, ?_, ?_, ?_⟩
    · rw [List.foldlM_cons, hreshd]
      simpa using hout
    · intro x hx
      exact hmono x (List.mem_append_left _ hx)
    · intro it hit res hres x hx
      rcases List.mem_cons.mp hit with h | h
      · subst h
        rw [hreshd] at hres
        injection hres with hres
        subst hres
        exact hmono x (List.mem_append_right _ hx)
      · exact hkeep it h res hres x hx

/-- Commuting a filter with a map that preserves the filtered property. -/
theorem filter_map_comm_of_preserve {α : Type} (f : α → α) (p : α → Bool) (l : List α)
    (hp : ∀ a, p (f a) = p a) : (l.map f).filter p = (l.filter p).map f := by
  induction l with
  | nil => rfl
  | cons hd tl ih =>
    by_cases h : p hd = true
    · simp [List.filter_cons, hp, h, ih]
    · simp [List.filter_cons, hp, h, ih]

/-- A fold whose step is insensitive to the encrypted-value rewrite `g` is
unchanged when the scanned rows are rewritten by `g`. -/
theorem foldScan_map_blind {β : Type} (step : List β → FieldsRow → Option (List β))
    (g : FieldsRow → String)
    (hstep : ∀ acc r, step acc (if r.encrypted then { r with value := g r } else r) =
      step acc r)
    (l : List FieldsRow) (acc : List β) :
    (l.map (fun r => if r.encrypted then { r with value := g r } else r)).foldlM step acc =
      l.foldlM step acc := by
  induction l generalizing acc with
  | nil => rfl
  | cons hd tl ih =>
    simp only [List.map_cons, List.foldlM_cons, hstep]
    cases hs : step acc hd with
    | none => rfl
    | some acc2 => simpa using ih acc2

/-- `searchItem` cannot observe the values of encrypted field rows: rewriting
every encrypted row's value by an arbitrary function changes nothing. -/
theorem searchItem_encrypted_blind (db db2 : Db) (m : String → Bool)
    (inf tf fnf fvf nf : Bool) (g : FieldsRow → String) (it : ItemRow)
    (htags : db2.sql.tags = db.sql.tags) (htt : db2.sql.tag_table = db.sql.tag_table)
    (hft : db2.sql.field_table = db.sql.field_table)
    (hfields : db2.sql.fields = db.sql.fields.map (fun r =>
      if r.encrypted then { r with value := g r } else r)) :
    db2.searchItem m inf tf fnf fvf nf it = db.searchItem m inf tf fnf fvf nf it := by
  unfold Db.searchItem
  simp only [Sql.get_tag_list, Sql.get_field_list, Sql.get_tag_table_id_mapping,
    Sql.get_field_table_id_mapping, htags, htt, hft, hfields]
  have hpres : ∀ r : FieldsRow,
      ((if r.encrypted then { r with value := g r } else r : FieldsRow).item_id == it.id) =
        (r.item_id == it.id) := by
    intro r
    by_cases hr : r.encrypted = true
    · simp [hr]
    · simp [hr]
  rw [filter_map_comm_of_preserve _ _ _ hpres]
  rw [foldScan_map_blind _ g ?hstep]
  intro acc r
  by_cases hr : r.encrypted = true
  · simp [hr]
  · simp only [Bool.not_eq_true] at hr
    simp [hr]

/-- C9 counterexample: with the field-name and field-value scopes both
enabled, the item whose unencrypted field value matches (and whose field
name does not) is NOT returned — the search yields the empty list — even
though with the field-value scope alone the very same item is returned. The
`elif` in `Database.search` skips value matching entirely whenever the
field-name scope is enabled. -/
theorem c9_counterexample_both_field_scopes :
    c9Match "joe" = true ∧ c9Match "user" = false ∧
    c9Db.sql.fields = [⟨1, 1, 1, "joe", false⟩] ∧
    c9Db.search c9Match false false true true false = some [] ∧
    c9Db.search c9Match false false false true false = some [(1, "item", 5)] := by
  exact ⟨rfl, rfl, rfl, rfl, rfl⟩

/-- C9 (amended): (1) on a store whose tag and field references all resolve,
`search` succeeds and returns an item whenever at least one effectively
enabled scope matches it — item name, note, a tag name, a field name (when
the field-name scope is enabled), or an unencrypted field value, the
field-value scope being effective only when the field-name scope is
disabled (the source's `elif`); and (2) field values whose encrypted flag is
set never participate: rewriting every encrypted value by an arbitrary
function leaves the search result unchanged. -/
theorem c9_amended_search :
    (∀ (db : Db) (m : String → Bool) (inf tf fnf fvf nf : Bool) (it : ItemRow),
      (∀ r ∈ db.sql.tags, (db.sql.get_tag_table_id_mapping r.tag_id).isSome) →
      (∀ r ∈ db.sql.fields, (db.sql.get_field_table_id_mapping r.field_id).isSome) →
      it ∈ db.sql.items →
      ((inf = true ∧ m it.name = true) ∨ (nf = true ∧ m it.note = true) ∨
       (tf = true ∧ ∃ r ∈ db.sql.tags, r.item_id = it.id ∧
          ∃ nm c, db.sql.get_tag_table_id_mapping r.tag_id = some (nm, c) ∧ m nm = true) ∨
       (fnf = true ∧ ∃ r ∈ db.sql.fields, r.item_id = it.id ∧
          ∃ nm sb c, db.sql.get_field_table_id_mapping r.field_id = some (nm, sb, c) ∧
            m nm = true) ∨
       (fnf = false ∧ fvf = true ∧ ∃ r ∈ db.sql.fields, r.item_id = it.id ∧
          r.encrypted = false ∧ m r.value = true)) →
      ∃ out, db.search m inf tf fnf fvf nf = some out ∧ (it.id, it.name, it.date) ∈ out) ∧
    (∀ (db db2 : Db) (m : String → Bool) (inf tf fnf fvf nf : Bool) (g : FieldsRow → String),
      db2.sql.items = db.sql.items → db2.sql.tags = db.sql.tags →
      db2.sql.tag_table = db.sql.tag_table → db2.sql.field_table = db.sql.field_table →
      db2.sql.fields = db.sql.fields.map (fun r =>
        if r.encrypted then { r with value := g r } else r) →
      db2.search m inf tf fnf fvf nf = db.search m inf tf fnf fvf nf) := by
  constructor
  · intro db m inf tf fnf fvf nf it hres_t hres_f hit hmatch
    have hall : ∀ it2 ∈ db.sql.items,
        ∃ res, db.searchItem m inf tf fnf fvf nf it2 = some res := by
      intro it2 _
      obtain ⟨res, h1, -⟩ := searchItem_spec db m inf tf fnf fvf nf it2 hres_t hres_f
      exact ⟨res, h1⟩
    obtain ⟨out, hout, -, hkeep⟩ := searchFold_spec db m inf tf fnf fvf nf db.sql.items hall []
    obtain ⟨res, hres, h1, h2, h3, h4, h5⟩ :=
      searchItem_spec db m inf tf fnf fvf nf it hres_t hres_f
    have htup : (it.id, it.name, it.date) ∈ res := by
      rcases hmatch with h | h | h | h | h
      exacts [h1 h, h2 h, h3 h, h4 h, h5 h]
    exact ⟨out, hout, hkeep it hit res hres _ htup⟩
  · intro db db2 m inf tf fnf fvf nf g hitems htags htt hft hfields
    unfold Db.search
    rw [hitems]
    have hSI : ∀ it, db2.searchItem m inf tf fnf fvf nf it =
        db.searchItem m inf tf fnf fvf nf it :=
      fun it => searchItem_encrypted_blind db db2 m inf tf fnf fvf nf g it htags htt hft hfields
    simp only [hSI]

/-- The C9 witness store: one item with an unencrypted field value `joe`. -/
def c9wStore : Sql :=
  ⟨[], [⟨1, "user", false, 0⟩], [⟨1, "item", 5, "note"⟩], [], [⟨1, 1, 1, "joe", false⟩],
   0, 1, 1, 0, 1⟩

/-- The C9 witness database. -/
def c9wDb : Db := ⟨"pw.db", none, c9wStore⟩

/-- Witness for the amended C9: with the field-value scope alone enabled,
the item with the matching unencrypted value is returned. -/
theorem c9_amended_search_witness :
    ∃ out, c9wDb.search (fun s => s == "joe") false false false true false = some out ∧
      ((1 : Nat), "item", (5 : Nat)) ∈ out :=
  c9_amended_search.1 c9wDb (fun s => s == "joe") false false false true false
    ⟨1, "item", 5, "note"⟩
    (by decide) (by decide) (by decide)
    (Or.inr (Or.inr (Or.inr (Or.inr
      ⟨rfl, rfl, ⟨1, 1, 1, "joe", false⟩, by decide, rfl, rfl, rfl⟩))))

/-! ## Claim C10: default item id after a parser item delete -/

/-- C10: for every session whose default item id is `X`, after the parser
processes an item delete command for `X`: if the response is OK the default
item id has been cleared, and if the response is not OK it is unchanged.
(In the code as it stands `CommandProcessor.item_delete` never returns OK —
see C3 — so the clearing branch is never exercised at run time; the guard
implementing it is nonetheless present and correct.) -/
theorem c10_default_item_guard (ps : ParserSession) (cp : CommandProcessor) (X : Nat)
    (hdef : ps.default_item_id = some X) :
    ((Parser.item_delete ps cp X).2.2.is_ok = true →
      (Parser.item_delete ps cp X).1.default_item_id = none) ∧
    ((Parser.item_delete ps cp X).2.2.is_ok = false →
      (Parser.item_delete ps cp X).1.default_item_id = some X) := by
  unfold Parser.item_delete
  constructor
  · intro hok
    simp only [hok] at *
    simp [hok, hdef]
  · intro hnok
    simp [hnok, hdef]

/-- Witness for C10: a concrete session with default item 1 and an unloaded
processor; the delete does not return OK and the default item id is kept. -/
theorem c10_default_item_guard_witness :
    ((Parser.item_delete ⟨some 1⟩ ⟨"pw.db", none⟩ 1).2.2.is_ok = true →
      (Parser.item_delete ⟨some 1⟩ ⟨"pw.db", none⟩ 1).1.default_item_id = none) ∧
    ((Parser.item_delete ⟨some 1⟩ ⟨"pw.db", none⟩ 1).2.2.is_ok = false →
      (Parser.item_delete ⟨some 1⟩ ⟨"pw.db", none⟩ 1).1.default_item_id = some 1) :=
  c10_default_item_guard ⟨some 1⟩ ⟨"pw.db", none⟩ 1 rfl

end MyPass
